import Mathlib

/-!
Verification of the Kanban board server core (src/server/src/index.ts and the
companion modules under src/unnamed) via a shallow embedding in Lean.

Modelling conventions:
- JavaScript Map values are association lists preserving insertion order.
- SQL tables are lists of rows; SERIAL primary keys are explicit counters.
- JavaScript numbers that the server uses as ids, counts and positions are
  small nonnegative integers in the source, modelled as Nat (positions as Int).
- Fallible handler code returns Except; each HTTP handler is a pure function
  from the database state and request data to the new state, the response and
  the list of emitted socket broadcasts.
-/

namespace Kanban

/-- Association-list model of a JavaScript Map: get returns the value of the
first entry carrying the key. -/
def mapGet {α : Type} (m : List (Nat × α)) (k : Nat) : Option α :=
  (m.find? (fun e => e.1 == k)).map (fun e => e.2)

/-- Model of JavaScript Map.set: replace the value in place if the key exists,
else append a new entry (Map preserves insertion order). -/
def mapSet {α : Type} : List (Nat × α) → Nat → α → List (Nat × α)
  | [], k, v => [(k, v)]
  | e :: rest, k, v => if e.1 == k then (k, v) :: rest else e :: mapSet rest k v

/-- Model of JavaScript Map.delete: remove the entry carrying the key. -/
def mapDelete {α : Type} (m : List (Nat × α)) (k : Nat) : List (Nat × α) :=
  m.filter (fun e => e.1 != k)

/-- The board presence table, from the declaration
const boardPresence = new Map of src/server/src/index.ts line 45:
boardId maps to a per-board map from userId to live connection count. -/
abbrev PresenceMap := List (Nat × List (Nat × Nat))

/-- addBoardPresence, src/server/src/index.ts lines 284-288. -/
def addBoardPresence (bp : PresenceMap) (boardId userId : Nat) : PresenceMap :=
  let boardMap := (mapGet bp boardId).getD []
  let boardMap2 := mapSet boardMap userId (((mapGet boardMap userId).getD 0) + 1)
  mapSet bp boardId boardMap2

/-- removeBoardPresence, src/server/src/index.ts lines 290-306. The source
mutates the retrieved per-board map in place; the association-list model
writes the mutated map back with mapSet, which leaves every other entry
untouched. -/
def removeBoardPresence (bp : PresenceMap) (boardId userId : Nat) : PresenceMap :=
  match mapGet bp boardId with
  | none => bp
  | some boardMap =>
    let count := (mapGet boardMap userId).getD 0
    let boardMap2 := if count ≤ 1 then mapDelete boardMap userId
                     else mapSet boardMap userId (count - 1)
    if boardMap2.length == 0 then mapDelete bp boardId
    else mapSet bp boardId boardMap2

/-- The online user list a presence snapshot reports for a board, from
notifyBoardPresence, src/server/src/index.ts lines 308-314. -/
def onlineUserIds (bp : PresenceMap) (boardId : Nat) : List Nat :=
  ((mapGet bp boardId).getD []).map (fun e => e.1)

/-- A join or leave event for a (board, user) pair, as delivered by the
socket handlers of src/server/src/index.ts lines 222-265. -/
inductive PresenceOp
  | join (boardId userId : Nat)
  | leave (boardId userId : Nat)
deriving DecidableEq, Repr

def applyPresenceOp (bp : PresenceMap) : PresenceOp → PresenceMap
  | .join b u => addBoardPresence bp b u
  | .leave b u => removeBoardPresence bp b u

/-- Run a sequence of join and leave events starting from the empty table. -/
def runPresence (ops : List PresenceOp) : PresenceMap :=
  ops.foldl applyPresenceOp []

/-- The reference count stored for a (board, user) pair, 0 when absent. -/
def refCount (bp : PresenceMap) (b u : Nat) : Nat :=
  (mapGet ((mapGet bp b).getD []) u).getD 0

/-- Invariant of the presence table: every per-board map present in the table
is nonempty and stores only counts of at least 1. -/
def PresenceInv (bp : PresenceMap) : Prop :=
  ∀ e ∈ bp, e.2 ≠ [] ∧ ∀ p ∈ e.2, 1 ≤ p.2

theorem mapGet_cons {α : Type} (e : Nat × α) (m : List (Nat × α)) (k : Nat) :
    mapGet (e :: m) k = if e.1 = k then some e.2 else mapGet m k := by
  by_cases h : e.1 = k <;> simp [mapGet, List.find?_cons, h]

theorem mapSet_cons {α : Type} (e : Nat × α) (m : List (Nat × α)) (k : Nat) (v : α) :
    mapSet (e :: m) k v = if e.1 = k then (k, v) :: m else e :: mapSet m k v := by
  by_cases h : e.1 = k <;> simp [mapSet, h]

theorem mapGet_mapSet_self {α : Type} (m : List (Nat × α)) (k : Nat) (v : α) :
    mapGet (mapSet m k v) k = some v := by
  induction m with
  | nil => simp [mapGet, mapSet, List.find?]
  | cons e rest ih =>
    rw [mapSet_cons]
    by_cases h : e.1 = k
    · simp [mapGet_cons, h]
    · simp [mapGet_cons, h, ih]

theorem mem_of_mem_mapSet {α : Type} {m : List (Nat × α)} {k : Nat} {v : α}
    {e : Nat × α} (h : e ∈ mapSet m k v) : e = (k, v) ∨ e ∈ m := by
  induction m with
  | nil => simpa [mapSet] using h
  | cons f rest ih =>
    rw [mapSet_cons] at h
    by_cases hf : f.1 = k
    · simp only [hf, if_true, List.mem_cons] at h
      rcases h with h | h
      · exact Or.inl h
      · exact Or.inr (List.mem_cons_of_mem _ h)
    · simp only [hf, if_false, List.mem_cons] at h
      rcases h with h | h
      · subst h
        exact Or.inr (List.mem_cons_self _ _)
      · rcases ih h with h2 | h2
        · exact Or.inl h2
        · exact Or.inr (List.mem_cons_of_mem _ h2)

theorem mapSet_ne_nil {α : Type} (m : List (Nat × α)) (k : Nat) (v : α) :
    mapSet m k v ≠ [] := by
  cases m with
  | nil => simp [mapSet]
  | cons e rest =>
    by_cases h : e.1 = k <;> simp [mapSet, h]

theorem mapSet_of_mapGet_eq {α : Type} {m : List (Nat × α)} {k : Nat} {v : α}
    (h : mapGet m k = some v) : mapSet m k v = m := by
  induction m with
  | nil => simp [mapGet] at h
  | cons e rest ih =>
    rw [mapGet_cons] at h
    rw [mapSet_cons]
    by_cases he : e.1 = k
    · simp only [he, if_true] at h ⊢
      cases e with
      | mk k1 v1 => simp_all
    · simp only [he, if_false] at h ⊢
      rw [ih h]

theorem mapGet_eq_none_iff {α : Type} {m : List (Nat × α)} {k : Nat} :
    mapGet m k = none ↔ ∀ e ∈ m, e.1 ≠ k := by
  simp [mapGet, List.find?_eq_none]

theorem mapGet_mem {α : Type} {m : List (Nat × α)} {k : Nat} {v : α}
    (h : mapGet m k = some v) : ∃ e ∈ m, e.1 = k ∧ e.2 = v := by
  simp only [mapGet, Option.map_eq_some'] at h
  obtain ⟨e, he, hev⟩ := h
  exact ⟨e, List.mem_of_find?_eq_some he, by simpa using List.find?_some he, hev⟩

theorem mapGet_isSome_of_mem {α : Type} {m : List (Nat × α)} {e : Nat × α}
    (h : e ∈ m) : (mapGet m e.1).isSome := by
  rw [mapGet, Option.isSome_map']
  rw [List.find?_isSome]
  exact ⟨e, h, by simp⟩

theorem presenceInv_add {bp : PresenceMap} (h : PresenceInv bp) (b u : Nat) :
    PresenceInv (addBoardPresence bp b u) := by
  intro e he
  rcases mem_of_mem_mapSet he with rfl | he2
  · constructor
    · exact mapSet_ne_nil _ _ _
    · intro p hp
      rcases mem_of_mem_mapSet hp with rfl | hp2
      · omega
      · cases hbm : mapGet bp b with
        | none => simp [hbm] at hp2
        | some bm =>
          obtain ⟨f, hf, _, hfv⟩ := mapGet_mem hbm
          have := (h f hf).2
          simp only [hbm, Option.getD_some] at hp2
          exact this p (hfv ▸ hp2)
  · exact h e he2

theorem mem_of_mem_mapDelete {α : Type} {m : List (Nat × α)} {k : Nat} {e : Nat × α}
    (h : e ∈ mapDelete m k) : e ∈ m := by
  rw [mapDelete] at h
  exact List.mem_of_mem_filter h

theorem presenceInv_remove {bp : PresenceMap} (h : PresenceInv bp) (b u : Nat) :
    PresenceInv (removeBoardPresence bp b u) := by
  simp only [removeBoardPresence]
  cases hbm : mapGet bp b with
  | none => exact h
  | some bm =>
    dsimp only []
    obtain ⟨f, hf, hfk, hfv⟩ := mapGet_mem hbm
    have hbmInv : ∀ p ∈ bm, 1 ≤ p.2 := fun p hp => (h f hf).2 p (hfv ▸ hp)
    generalize hbm2 : (if (mapGet bm u).getD 0 ≤ 1 then mapDelete bm u
        else mapSet bm u ((mapGet bm u).getD 0 - 1)) = bm2
    have hbm2Inv : ∀ p ∈ bm2, 1 ≤ p.2 := by
      rw [← hbm2]
      intro p hp
      split at hp
      · exact hbmInv p (mem_of_mem_mapDelete hp)
      · rcases mem_of_mem_mapSet hp with rfl | hp2
        · simp only []
          omega
        · exact hbmInv p hp2
    by_cases hlen : bm2.length = 0
    · simp only [hlen]
      intro e he
      exact h e (mem_of_mem_mapDelete he)
    · have hlenb : (bm2.length == 0) = false := by simpa using hlen
      simp only [hlenb, Bool.false_eq_true, if_false]
      intro e he
      rcases mem_of_mem_mapSet he with rfl | he2
      · refine ⟨?_, hbm2Inv⟩
        intro hnil
        apply hlen
        have hx : bm2 = [] := hnil
        simp [hx]
      · exact h e he2

theorem mapGet_mapDelete_self {α : Type} (m : List (Nat × α)) (k : Nat) :
    mapGet (mapDelete m k) k = none := by
  rw [mapGet, Option.map_eq_none']
  rw [List.find?_eq_none]
  intro e he
  have := List.of_mem_filter he
  simpa using this

theorem mapDelete_of_mapGet_eq_none {α : Type} {m : List (Nat × α)} {k : Nat}
    (h : mapGet m k = none) : mapDelete m k = m := by
  rw [mapDelete, List.filter_eq_self]
  intro e he
  rw [mapGet, Option.map_eq_none', List.find?_eq_none] at h
  simpa using h e he

theorem online_iff_refCount {bp : PresenceMap} (hinv : PresenceInv bp) (b u : Nat) :
    u ∈ onlineUserIds bp b ↔ 1 ≤ refCount bp b u := by
  rw [onlineUserIds, refCount]
  cases hbm : mapGet bp b with
  | none => simp [mapGet]
  | some bm =>
    obtain ⟨f, hf, hfk, hfv⟩ := mapGet_mem hbm
    have hbmInv : ∀ p ∈ bm, 1 ≤ p.2 := fun p hp => (hinv f hf).2 p (hfv ▸ hp)
    simp only [Option.getD_some, List.mem_map]
    constructor
    · rintro ⟨e, he, rfl⟩
      have hs := mapGet_isSome_of_mem he
      cases hq : mapGet bm e.1 with
      | none => rw [hq] at hs; simp at hs
      | some c =>
        obtain ⟨q, hqm, _, hqv⟩ := mapGet_mem hq
        have := hbmInv q hqm
        simp [hq, ← hqv, this]
    · intro hc
      cases hq : mapGet bm u with
      | none => rw [hq] at hc; simp at hc
      | some c =>
        obtain ⟨q, hqm, hqk, _⟩ := mapGet_mem hq
        exact ⟨q, hqm, hqk⟩

theorem removeBoardPresence_noop {bp : PresenceMap} (hinv : PresenceInv bp) (b u : Nat)
    (h : refCount bp b u = 0) : removeBoardPresence bp b u = bp := by
  rw [removeBoardPresence]
  cases hbm : mapGet bp b with
  | none => rfl
  | some bm =>
    dsimp only []
    obtain ⟨f, hf, hfk, hfv⟩ := mapGet_mem hbm
    have hbmInv : ∀ p ∈ bm, 1 ≤ p.2 := fun p hp => (hinv f hf).2 p (hfv ▸ hp)
    rw [refCount, hbm, Option.getD_some] at h
    have hnone : mapGet bm u = none := by
      cases hq : mapGet bm u with
      | none => rfl
      | some c =>
        obtain ⟨q, hqm, _, hqv⟩ := mapGet_mem hq
        have := hbmInv q hqm
        rw [hq, Option.getD_some] at h
        omega
    rw [hnone]
    simp only [Option.getD_none, Nat.zero_le, if_true, mapDelete_of_mapGet_eq_none hnone]
    have hne : bm ≠ [] := hfv ▸ (hinv f hf).1
    have hlen : (bm.length == 0) = false := by
      simpa using fun hx => hne (List.length_eq_zero.mp hx)
    rw [hlen]
    simp only [Bool.false_eq_true, if_false]
    exact mapSet_of_mapGet_eq hbm

theorem board_entry_positive {bp : PresenceMap} (hinv : PresenceInv bp) {b : Nat}
    {bm : List (Nat × Nat)} (hbm : mapGet bp b = some bm) :
    ∃ u, 1 ≤ refCount bp b u := by
  obtain ⟨f, hf, hfk, hfv⟩ := mapGet_mem hbm
  have hbmInv : ∀ p ∈ bm, 1 ≤ p.2 := fun p hp => (hinv f hf).2 p (hfv ▸ hp)
  have hne : bm ≠ [] := hfv ▸ (hinv f hf).1
  cases hbmc : bm with
  | nil => exact absurd hbmc hne
  | cons p rest =>
    refine ⟨p.1, ?_⟩
    rw [refCount, hbm, Option.getD_some]
    have hp : p ∈ bm := by rw [hbmc]; exact List.mem_cons_self _ _
    have hs := mapGet_isSome_of_mem hp
    cases hq : mapGet bm p.1 with
    | none => rw [hq] at hs; simp at hs
    | some c =>
      obtain ⟨q, hqm, _, hqv⟩ := mapGet_mem hq
      have := hbmInv q hqm
      simp only [hq, Option.getD_some]
      omega

theorem refCount_add_self (bp : PresenceMap) (b u : Nat) :
    refCount (addBoardPresence bp b u) b u = refCount bp b u + 1 := by
  rw [addBoardPresence, refCount]
  rw [mapGet_mapSet_self, Option.getD_some, mapGet_mapSet_self, Option.getD_some]
  rfl

theorem refCount_remove_self (bp : PresenceMap) (b u : Nat)
    (h : 1 ≤ refCount bp b u) :
    refCount (removeBoardPresence bp b u) b u = refCount bp b u - 1 := by
  cases hbm : mapGet bp b with
  | none => rw [refCount, hbm] at h; simp [mapGet] at h
  | some bm =>
    cases hq : mapGet bm u with
    | none => rw [refCount, hbm, Option.getD_some, hq] at h; simp at h
    | some c =>
      have hrc : refCount bp b u = c := by
        rw [refCount, hbm, Option.getD_some, hq, Option.getD_some]
      rw [hrc] at h ⊢
      rw [removeBoardPresence, hbm]
      dsimp only []
      rw [hq]
      simp only [Option.getD_some]
      by_cases hc : c ≤ 1
      · simp only [hc, if_true]
        by_cases hlen : (mapDelete bm u).length = 0
        · have hlenb : ((mapDelete bm u).length == 0) = true := by simpa using hlen
          rw [hlenb]
          simp only [if_true]
          rw [refCount, mapGet_mapDelete_self]
          simp [mapGet]
          omega
        · have hlenb : ((mapDelete bm u).length == 0) = false := by simpa using hlen
          rw [hlenb]
          simp only [Bool.false_eq_true, if_false]
          rw [refCount, mapGet_mapSet_self, Option.getD_some, mapGet_mapDelete_self]
          simp
          omega
      · simp only [hc, if_false]
        have hlenb : ((mapSet bm u (c - 1)).length == 0) = false := by
          simpa using fun hx => mapSet_ne_nil bm u (c - 1) (List.length_eq_zero.mp hx)
        rw [hlenb]
        simp only [Bool.false_eq_true, if_false]
        rw [refCount, mapGet_mapSet_self, Option.getD_some, mapGet_mapSet_self]
        rfl

theorem presenceInv_run (ops : List PresenceOp) : PresenceInv (runPresence ops) := by
  rw [runPresence]
  have base : PresenceInv ([] : PresenceMap) := by intro e he; simp at he
  generalize ([] : PresenceMap) = bp0 at base ⊢
  induction ops generalizing bp0 with
  | nil => simpa using base
  | cons op rest ih =>
    simp only [List.foldl_cons]
    apply ih
    cases op with
    | join b u => exact presenceInv_add base b u
    | leave b u => exact presenceInv_remove base b u

/-- C4: for every sequence of join and leave operations on the presence
tracker, a user is reported among the online users of a board iff their
reference count is at least 1; a leave at count 0 is a no-op (no error, no
negative count); a board has a presence entry only while some user on it has
a positive count; join increments and leave (at positive count) decrements
the count, so two joins followed by one leave keep the user online and a
second leave marks them offline. -/
theorem presence_refcount_correct (ops : List PresenceOp) (bp : PresenceMap)
    (hbp : bp = runPresence ops) :
    (∀ b u, u ∈ onlineUserIds bp b ↔ 1 ≤ refCount bp b u) ∧
    (∀ b u, refCount bp b u = 0 → removeBoardPresence bp b u = bp) ∧
    (∀ b bm, mapGet bp b = some bm → ∃ u, 1 ≤ refCount bp b u) ∧
    (∀ b u, refCount (addBoardPresence bp b u) b u = refCount bp b u + 1) ∧
    (∀ b u, 1 ≤ refCount bp b u →
      refCount (removeBoardPresence bp b u) b u = refCount bp b u - 1) := by
  have hinv : PresenceInv bp := hbp ▸ presenceInv_run ops
  refine ⟨fun b u => online_iff_refCount hinv b u,
    fun b u h => removeBoardPresence_noop hinv b u h,
    fun b bm h => board_entry_positive hinv h,
    fun b u => refCount_add_self bp b u,
    fun b u h => refCount_remove_self bp b u h⟩

/-- Witness for C4: user 2 joins board 1 twice and leaves once, staying
online; a second leave marks them offline; a further leave is a no-op. -/
theorem presence_refcount_correct_witness :
    (2 ∈ onlineUserIds (runPresence [.join 1 2, .join 1 2, .leave 1 2]) 1 ↔
      1 ≤ refCount (runPresence [.join 1 2, .join 1 2, .leave 1 2]) 1 2) ∧
    2 ∈ onlineUserIds (runPresence [.join 1 2, .join 1 2, .leave 1 2]) 1 ∧
    2 ∉ onlineUserIds (runPresence [.join 1 2, .join 1 2, .leave 1 2, .leave 1 2]) 1 ∧
    removeBoardPresence (runPresence [.join 1 2, .join 1 2, .leave 1 2, .leave 1 2]) 1 2 =
      runPresence [.join 1 2, .join 1 2, .leave 1 2, .leave 1 2] :=
  ⟨(presence_refcount_correct [.join 1 2, .join 1 2, .leave 1 2] _ rfl).1 1 2,
   by decide, by decide,
   (presence_refcount_correct [.join 1 2, .join 1 2, .leave 1 2, .leave 1 2] _ rfl).2.1 1 2
     (by decide)⟩

/-- Gregorian leap-year rule of the JavaScript Date object (proleptic
Gregorian calendar); the years this development feeds in are nonnegative,
where Int emod agrees with the JavaScript remainder. -/
def isLeap (y : Int) : Bool :=
  y % 4 == 0 && (y % 100 != 0 || y % 400 == 0)

/-- Number of days in month m (1 = January .. 12 = December) of year y. -/
def daysInMonth (y m : Int) : Int :=
  if m = 1 then 31
  else if m = 2 then (if isLeap y then 29 else 28)
  else if m = 3 then 31
  else if m = 4 then 30
  else if m = 5 then 31
  else if m = 6 then 30
  else if m = 7 then 31
  else if m = 8 then 31
  else if m = 9 then 30
  else if m = 10 then 31
  else if m = 11 then 30
  else 31

/-- Day-of-month normalization of the JavaScript MakeDay operation: from
year y, month m in 1..12 and an integer day offset d, walk months until the
day falls inside a month. The fuel bounds the walk; fuel 6 covers every day
value the two-digit due-date format can produce (0..99). -/
def normDays : Nat → Int → Int → Int → Int × Int × Int
  | 0, y, m, d => (y, m, d)
  | fuel + 1, y, m, d =>
    if d < 1 then
      let py := if m = 1 then y - 1 else y
      let pm := if m = 1 then 12 else m - 1
      normDays fuel py pm (d + daysInMonth py pm)
    else if d > daysInMonth y m then
      if m = 12 then normDays fuel (y + 1) 1 (d - daysInMonth y m)
      else normDays fuel y (m + 1) (d - daysInMonth y m)
    else (y, m, d)

/-- Model of the round-trip check in normalizeDueDate,
src/server/src/index.ts lines 144-151: build Date.UTC(year, month - 1, day)
and compare getUTCFullYear, getUTCMonth and getUTCDate against the parsed
parts. Per ECMA-262, Date.UTC maps a year in 0..99 to 1900 + year and
normalizes month and day overflow onto the proleptic Gregorian calendar
using floor division and modulo by 12, which for the positive divisor 12
coincide with Int division and remainder. -/
def jsUtcCheck (year month day : Int) : Bool :=
  let effY := if 0 ≤ year ∧ year ≤ 99 then year + 1900 else year
  let mi := month - 1
  let r := normDays 6 (effY + mi / 12) (mi % 12 + 1) day
  r.1 == year && r.2.1 == month && r.2.2 == day

/-- Decimal digit test, modelling the digit class of the due-date regex. -/
def isDigitChar (c : Char) : Bool := 48 ≤ c.toNat && c.toNat ≤ 57

def digitVal (c : Char) : Nat := c.toNat - 48

/-- Parse the trimmed candidate against the anchored pattern of
normalizeDueDate, src/server/src/index.ts line 136: four digits, a dash,
two digits, a dash, two digits; the parts are then read in decimal as
Number does on the split pieces. -/
def parseYmd (t : String) : Option (Nat × Nat × Nat) :=
  match t.data with
  | [y1, y2, y3, y4, h1, m1, m2, h2, d1, d2] =>
    if isDigitChar y1 && isDigitChar y2 && isDigitChar y3 && isDigitChar y4 &&
        h1 == '-' && isDigitChar m1 && isDigitChar m2 &&
        h2 == '-' && isDigitChar d1 && isDigitChar d2 then
      some (digitVal y1 * 1000 + digitVal y2 * 100 + digitVal y3 * 10 + digitVal y4,
            digitVal m1 * 10 + digitVal m2,
            digitVal d1 * 10 + digitVal d2)
    else none
  | _ => none

/-- Whitespace class of the JavaScript trim operation: ASCII whitespace,
vertical tab, form feed, no-break space and the BOM (ECMA-262 TrimString);
the strings this server handles are covered by this set. -/
def jsIsWhitespace (c : Char) : Bool :=
  c == ' ' || c == '\t' || c == '\n' || c == '\r' ||
  c.toNat == 11 || c.toNat == 12 || c.toNat == 160 || c.toNat == 65279

/-- Model of the JavaScript String.prototype.trim: drop the whitespace
prefix and suffix. -/
def jsTrim (s : String) : String :=
  ⟨((s.data.dropWhile jsIsWhitespace).reverse.dropWhile jsIsWhitespace).reverse⟩

/-- normalizeDueDate, src/server/src/index.ts lines 134-156: trim, match the
YYYY-MM-DD pattern and accept iff the JavaScript UTC round-trip check
passes, returning the trimmed string unchanged. -/
def normalizeDueDate (s : String) : Option String :=
  match parseYmd (jsTrim s) with
  | none => none
  | some (y, m, d) =>
    if jsUtcCheck (y : Int) (m : Int) (d : Int) then some (jsTrim s) else none

/-- The pg DATE type parser installed in src/unnamed/part_007: DATE columns
are returned as the plain stored YYYY-MM-DD string, with no timezone
conversion (identity parser). -/
def dateTypeParser (v : String) : String := v

/-- A real calendar date in the words of the spec: the month is between 1
and 12 and the day between 1 and the length of that month of that year. -/
def isRealCalendarDate (y m d : Nat) : Prop :=
  1 ≤ m ∧ m ≤ 12 ∧ 1 ≤ d ∧ (d : Int) ≤ daysInMonth (y : Int) (m : Int)

instance (y m d : Nat) : Decidable (isRealCalendarDate y m d) := by
  unfold isRealCalendarDate
  infer_instance

set_option maxHeartbeats 1000000 in
theorem daysInMonth_bounds (y m : Int) :
    28 ≤ daysInMonth y m ∧ daysInMonth y m ≤ 31 := by
  unfold daysInMonth
  split_ifs <;> omega

theorem normDays_month_range : ∀ (fuel : Nat) (y m d : Int), 1 ≤ m → m ≤ 12 →
    1 ≤ (normDays fuel y m d).2.1 ∧ (normDays fuel y m d).2.1 ≤ 12
  | 0, _, _, _, h1, h2 => ⟨h1, h2⟩
  | fuel + 1, y, m, d, h1, h2 => by
    rw [normDays]
    by_cases hb : d < 1
    · rw [if_pos hb]
      by_cases hm : m = 1
      · simp only [hm, if_true]
        exact normDays_month_range fuel (y - 1) 12 _ (by omega) (by omega)
      · simp only [hm, if_false]
        exact normDays_month_range fuel y (m - 1) _ (by omega) (by omega)
    · rw [if_neg hb]
      by_cases hc : d > daysInMonth y m
      · rw [if_pos hc]
        by_cases hm : m = 12
        · rw [if_pos hm]
          exact normDays_month_range fuel (y + 1) 1 _ (by omega) (by omega)
        · rw [if_neg hm]
          exact normDays_month_range fuel y (m + 1) _ (by omega) (by omega)
      · rw [if_neg hc]
        exact ⟨h1, h2⟩

theorem normDays_year_ge : ∀ (fuel : Nat) (y m d : Int), 1 ≤ d →
    y ≤ (normDays fuel y m d).1
  | 0, y, _, _, _ => le_refl y
  | fuel + 1, y, m, d, hd => by
    rw [normDays]
    by_cases hb : d < 1
    · exact absurd hb (by omega)
    · rw [if_neg hb]
      by_cases hc : d > daysInMonth y m
      · rw [if_pos hc]
        by_cases hm : m = 12
        · rw [if_pos hm]
          have := normDays_year_ge fuel (y + 1) 1 (d - daysInMonth y m) (by omega)
          omega
        · rw [if_neg hm]
          have := normDays_year_ge fuel y (m + 1) (d - daysInMonth y m) (by omega)
          omega
      · rw [if_neg hc]

theorem normDays_year_ge_of_nonneg (fuel : Nat) (y m d : Int) (hd : 0 ≤ d) :
    y - 1 ≤ (normDays fuel y m d).1 := by
  cases fuel with
  | zero => simp [normDays]
  | succ fuel =>
    rw [normDays]
    by_cases hb : d < 1
    · rw [if_pos hb]
      by_cases hm : m = 1
      · simp only [hm, if_true]
        have hdim := daysInMonth_bounds (y - 1) 12
        have := normDays_year_ge fuel (y - 1) 12 (d + daysInMonth (y - 1) 12) (by omega)
        omega
      · simp only [hm, if_false]
        have hdim := daysInMonth_bounds y (m - 1)
        have := normDays_year_ge fuel y (m - 1) (d + daysInMonth y (m - 1)) (by omega)
        omega
    · rw [if_neg hb]
      by_cases hc : d > daysInMonth y m
      · rw [if_pos hc]
        by_cases hm : m = 12
        · rw [if_pos hm]
          have := normDays_year_ge fuel (y + 1) 1 (d - daysInMonth y m) (by omega)
          omega
        · rw [if_neg hm]
          have := normDays_year_ge fuel y (m + 1) (d - daysInMonth y m) (by omega)
          omega
      · rw [if_neg hc]
        omega

theorem normDays_lex (fuel : Nat) (y m d : Int) (hd : 1 ≤ d) :
    y < (normDays fuel y m d).1 ∨
    ((normDays fuel y m d).1 = y ∧ m < (normDays fuel y m d).2.1) ∨
    normDays fuel y m d = (y, m, d) := by
  induction fuel generalizing y m d with
  | zero => exact Or.inr (Or.inr rfl)
  | succ fuel ih =>
    rw [normDays]
    by_cases hb : d < 1
    · exact absurd hb (by omega)
    · rw [if_neg hb]
      by_cases hc : d > daysInMonth y m
      · rw [if_pos hc]
        by_cases hm : m = 12
        · rw [if_pos hm]
          have := normDays_year_ge fuel (y + 1) 1 (d - daysInMonth y m) (by omega)
          left
          omega
        · rw [if_neg hm]
          rcases ih y (m + 1) (d - daysInMonth y m) (by omega)
            with h | ⟨h1, h2⟩ | h
          · left
            exact h
          · right
            left
            exact ⟨h1, by omega⟩
          · right
            left
            rw [h]
            refine ⟨rfl, ?_⟩
            show m < m + 1
            omega
      · rw [if_neg hc]
        exact Or.inr (Or.inr rfl)

theorem normDays_exit (fuel : Nat) (y m d : Int) (h1 : 1 ≤ d)
    (h2 : d ≤ daysInMonth y m) : normDays fuel y m d = (y, m, d) := by
  cases fuel with
  | zero => rfl
  | succ fuel =>
    rw [normDays, if_neg (by omega), if_neg (by omega)]

theorem normDays_succ_carry (fuel : Nat) (y m d : Int) (h1 : ¬ d < 1)
    (h2 : d > daysInMonth y m) :
    normDays (fuel + 1) y m d =
      if m = 12 then normDays fuel (y + 1) 1 (d - daysInMonth y m)
      else normDays fuel y (m + 1) (d - daysInMonth y m) := by
  rw [normDays, if_neg h1, if_pos h2]

theorem normDays_borrow_day (fuel : Nat) (y m : Int) :
    28 ≤ (normDays (fuel + 2) y m 0).2.2 := by
  rw [normDays, if_pos (by omega : (0 : Int) < 1)]
  simp only []
  have hb := daysInMonth_bounds (if m = 1 then y - 1 else y) (if m = 1 then 12 else m - 1)
  rw [zero_add, normDays_exit (fuel + 1) _ _ _ (by omega) (le_refl _)]
  exact hb.1

/-- Characterization of the JavaScript UTC round-trip check used by
normalizeDueDate: it accepts exactly the real calendar dates whose year has
at least three digits, because Date.UTC maps years 0..99 to 1900..1999. -/
theorem jsUtcCheck_iff (y m d : Nat) :
    jsUtcCheck (y : Int) (m : Int) (d : Int) = true ↔
      100 ≤ y ∧ isRealCalendarDate y m d := by
  have hmod0 : (0 : Int) ≤ ((m : Int) - 1) % 12 := Int.emod_nonneg _ (by norm_num)
  have hmod12 : ((m : Int) - 1) % 12 < 12 := Int.emod_lt_of_pos _ (by norm_num)
  have h6 : (6 : Nat) = 5 + 1 := rfl
  simp only [jsUtcCheck, Bool.and_eq_true, beq_iff_eq, isRealCalendarDate]
  constructor
  · rintro ⟨⟨h1, h2⟩, h3⟩
    have hmr := normDays_month_range 6
      ((if (0 : Int) ≤ (y : Int) ∧ (y : Int) ≤ 99 then (y : Int) + 1900 else (y : Int)) +
        ((m : Int) - 1) / 12) (((m : Int) - 1) % 12 + 1) (d : Int) (by omega) (by omega)
    rw [h2] at hmr
    have hm1 : 1 ≤ m := by omega
    have hm2 : m ≤ 12 := by omega
    have hy100 : 100 ≤ y := by
      by_contra hylt
      have hcond : (0 : Int) ≤ (y : Int) ∧ (y : Int) ≤ 99 := by
        constructor <;> omega
      rw [if_pos hcond] at h1
      have hm1div : ((-1 : Int)) / 12 = -1 := by decide
      have hdiv := Int.ediv_le_ediv (by norm_num : (0 : Int) < 12)
        (by omega : (-1 : Int) ≤ (m : Int) - 1)
      rw [hm1div] at hdiv
      have hylb := normDays_year_ge_of_nonneg 6
        (((y : Int) + 1900) + ((m : Int) - 1) / 12) (((m : Int) - 1) % 12 + 1) (d : Int)
        (by omega)
      rw [h1] at hylb
      omega
    have hcond : ¬((0 : Int) ≤ (y : Int) ∧ (y : Int) ≤ 99) := by omega
    rw [if_neg hcond] at h1 h2 h3
    have hdiv0 : ((m : Int) - 1) / 12 = 0 := Int.ediv_eq_zero_of_lt (by omega) (by omega)
    have hmod : ((m : Int) - 1) % 12 = (m : Int) - 1 := Int.emod_eq_of_lt (by omega) (by omega)
    rw [hdiv0, hmod, add_zero, sub_add_cancel] at h1 h2 h3
    by_cases hdlt : (d : Int) < 1
    · have hd0 : (d : Int) = 0 := by omega
      rw [hd0] at h3
      have hbd := normDays_borrow_day 4 (y : Int) (m : Int)
      have h64 : (4 : Nat) + 2 = 6 := rfl
      rw [h64] at hbd
      rw [h3] at hbd
      omega
    · by_cases hcarry : (d : Int) > daysInMonth (y : Int) (m : Int)
      · rw [h6, normDays_succ_carry 5 _ _ _ hdlt hcarry] at h1 h2
        by_cases hm12 : m = 12
        · have hm12i : (m : Int) = 12 := by omega
          rw [if_pos hm12i] at h1
          have := normDays_year_ge 5 ((y : Int) + 1)
            1 ((d : Int) - daysInMonth (y : Int) (m : Int)) (by omega)
          rw [h1] at this
          omega
        · have hm12i : ¬((m : Int) = 12) := by omega
          rw [if_neg hm12i] at h1 h2
          rcases normDays_lex 5 (y : Int) ((m : Int) + 1)
              ((d : Int) - daysInMonth (y : Int) (m : Int)) (by omega)
            with h | ⟨ha, hb⟩ | h
          · rw [h1] at h
            omega
          · rw [h2] at hb
            omega
          · rw [h] at h2
            simp at h2
      · refine ⟨hy100, hm1, hm2, by omega, by omega⟩
  · rintro ⟨hy100, hm1, hm2, hd1, hdim⟩
    have hcond : ¬((0 : Int) ≤ (y : Int) ∧ (y : Int) ≤ 99) := by omega
    rw [if_neg hcond]
    have hdiv0 : ((m : Int) - 1) / 12 = 0 := Int.ediv_eq_zero_of_lt (by omega) (by omega)
    have hmod : ((m : Int) - 1) % 12 = (m : Int) - 1 := Int.emod_eq_of_lt (by omega) (by omega)
    rw [hdiv0, hmod, add_zero, sub_add_cancel]
    rw [normDays_exit 6 _ _ _ (by omega) hdim]
    exact ⟨⟨rfl, rfl⟩, rfl⟩

/-- C9 (amended): a due-date string is accepted iff, after trimming, it
matches the YYYY-MM-DD pattern, denotes a real calendar date and its year
has at least three digits (years 0000..0099 are rejected because the
JavaScript Date.UTC used by the validity check maps them to 1900..1999); an
accepted string is stored as the trimmed input itself,
character-for-character, and the DATE type parser returns the stored string
unchanged, with no timezone conversion. -/
theorem normalizeDueDate_correct (s : String) :
    (∀ y m d, parseYmd (jsTrim s) = some (y, m, d) →
      (normalizeDueDate s = some (jsTrim s) ↔ 100 ≤ y ∧ isRealCalendarDate y m d)) ∧
    (parseYmd (jsTrim s) = none → normalizeDueDate s = none) ∧
    (∀ t, normalizeDueDate s = some t → t = jsTrim s ∧ dateTypeParser t = t) := by
  refine ⟨?_, ?_, ?_⟩
  · intro y m d hp
    rw [normalizeDueDate, hp]
    dsimp only []
    by_cases hc : jsUtcCheck (y : Int) (m : Int) (d : Int) = true
    · rw [if_pos hc]
      constructor
      · intro _
        exact (jsUtcCheck_iff y m d).mp hc
      · intro _
        rfl
    · rw [if_neg hc]
      constructor
      · intro h
        cases h
      · intro h
        exact absurd ((jsUtcCheck_iff y m d).mpr h) hc
  · intro hp
    rw [normalizeDueDate, hp]
  · intro t h
    rw [normalizeDueDate] at h
    cases hp : parseYmd (jsTrim s) with
    | none => rw [hp] at h; cases h
    | some p =>
      obtain ⟨y, m, d⟩ := p
      rw [hp] at h
      dsimp only [] at h
      by_cases hc : jsUtcCheck (y : Int) (m : Int) (d : Int) = true
      · rw [if_pos hc] at h
        cases h
        exact ⟨rfl, rfl⟩
      · rw [if_neg hc] at h
        cases h

/-- Counterexample to C9 as stated: the string "0026-03-10" matches the
YYYY-MM-DD pattern and denotes a real calendar date (10 March of year 26),
yet normalizeDueDate rejects it, because Date.UTC maps a year in 0..99 to
1900 + year and the round-trip check then fails. -/
theorem normalizeDueDate_claim_counterexample :
    parseYmd "0026-03-10" = some (26, 3, 10) ∧
    isRealCalendarDate 26 3 10 ∧
    normalizeDueDate "0026-03-10" = none := by
  refine ⟨by decide, by decide, by decide⟩

/-- Witness for C9 (amended): "2026-03-10" parses, is accepted and round
trips unchanged through storage and the DATE type parser, while
"2026-02-30" is rejected as not a real calendar date. -/
theorem normalizeDueDate_correct_witness :
    parseYmd (jsTrim "2026-03-10") = some (2026, 3, 10) ∧
    (normalizeDueDate "2026-03-10" = some (jsTrim "2026-03-10") ↔
      100 ≤ 2026 ∧ isRealCalendarDate 2026 3 10) ∧
    normalizeDueDate "2026-03-10" = some "2026-03-10" ∧
    normalizeDueDate "2026-02-30" = none ∧
    dateTypeParser "2026-03-10" = "2026-03-10" :=
  ⟨by decide, (normalizeDueDate_correct "2026-03-10").1 2026 3 10 (by decide),
   by decide, by decide, rfl⟩

/-- Board role, src/server/src/index.ts line 11. -/
inductive BoardRole
  | owner
  | member
  | viewer
deriving DecidableEq, Repr

/-- canWrite, src/server/src/index.ts lines 130-132. -/
def canWrite : BoardRole → Bool
  | .owner => true
  | .member => true
  | .viewer => false

structure User where
  id : Nat
  name : String
  email : String
deriving DecidableEq, Repr

structure Board where
  id : Nat
  name : String
deriving DecidableEq, Repr

structure Membership where
  boardId : Nat
  userId : Nat
  role : BoardRole
deriving DecidableEq, Repr

structure Column where
  id : Nat
  boardId : Nat
  title : String
  position : Int
deriving DecidableEq, Repr

structure Card where
  id : Nat
  boardId : Nat
  columnId : Nat
  title : String
  description : String
  assignee : Option String
  dueDate : Option String
  position : Int
deriving DecidableEq, Repr

structure Activity where
  id : Nat
  boardId : Nat
  actorUserId : Nat
  entityType : String
  entityId : Option Nat
  action : String
  message : String
  createdAt : Nat
deriving DecidableEq, Repr

structure Comment where
  id : Nat
  boardId : Nat
  cardId : Nat
  userId : Nat
  body : String
  createdAt : Nat
deriving DecidableEq, Repr

/-- The relational store of src/server/db/schema.sql as lists of rows, plus
the next value of each SERIAL key (metadata and timestamp columns that no
claim touches are elided). -/
structure DB where
  users : List User
  boards : List Board
  members : List Membership
  columns : List Column
  cards : List Card
  comments : List Comment
  activities : List Activity
  nextColumnId : Nat
  nextCardId : Nat
  nextCommentId : Nat
  nextActivityId : Nat
deriving DecidableEq, Repr

structure ApiError where
  status : Nat
  message : String
deriving DecidableEq, Repr

/-- A socket event emitted by notifyBoard or notifyUser,
src/server/src/index.ts lines 268-282. -/
inductive Broadcast
  | boardChanged (boardId : Nat) (event : String)
  | boardsChanged (userId : Nat) (event : String)
deriving DecidableEq, Repr

/-- Result of one HTTP handler: the database after the request, the response
and the socket broadcasts emitted while serving it. -/
structure HandlerResult (α : Type) where
  db : DB
  resp : Except ApiError α
  broadcasts : List Broadcast

/-- getBoardRole, src/server/src/index.ts lines 88-95. -/
def getBoardRole (db : DB) (userId boardId : Nat) : Option BoardRole :=
  (db.members.find? (fun mb => mb.boardId == boardId && mb.userId == userId)).map
    (fun mb => mb.role)

def findCard (db : DB) (cardId : Nat) : Option Card :=
  db.cards.find? (fun c => c.id == cardId)

def findColumn (db : DB) (columnId : Nat) : Option Column :=
  db.columns.find? (fun c => c.id == columnId)

def findBoard (db : DB) (boardId : Nat) : Option Board :=
  db.boards.find? (fun b => b.id == boardId)

/-- logActivity, src/server/src/index.ts lines 106-128: insert one activity
row (the jsonb metadata is elided, no claim touches it). -/
def logActivity (db : DB) (boardId actorUserId : Nat) (entityType : String)
    (entityId : Option Nat) (action message : String) (now : Nat) : DB :=
  { db with
    activities := db.activities ++
      [⟨db.nextActivityId, boardId, actorUserId, entityType, entityId, action, message, now⟩],
    nextActivityId := db.nextActivityId + 1 }

/-- ASCII lowering, modelling String.prototype.toLowerCase and the SQL
LOWER on the ASCII names and emails this server compares. -/
def lowerChar (c : Char) : Char :=
  if 65 ≤ c.toNat ∧ c.toNat ≤ 90 then Char.ofNat (c.toNat + 32) else c

def lowerStr (s : String) : String :=
  ⟨s.data.map lowerChar⟩

/-- resolveBoardAssigneeName, src/server/src/index.ts lines 158-179: trim;
an empty value resolves to nothing; otherwise return the name of the first
board member (in table order, modelling the SQL LIMIT 1) whose name or
email matches case-insensitively. -/
def resolveBoardAssigneeName (db : DB) (boardId : Nat) (assigneeValue : String) :
    Option String :=
  let trimmed := jsTrim assigneeValue
  if trimmed = "" then none
  else
    (db.members.filterMap (fun mb =>
      if mb.boardId == boardId then
        (db.users.find? (fun u => u.id == mb.userId)).bind (fun u =>
          if lowerStr u.name == lowerStr trimmed ∨ lowerStr u.email == lowerStr trimmed
          then some u.name else none)
      else none)).head?

/-- Body of PATCH /api/cards/:cardId (updateCardSchema, lines 347-352): an
absent field is the outer none; assignee and dueDate accept an explicit
null (the inner none). -/
structure UpdateCardData where
  title : Option String
  description : Option String
  assignee : Option (Option String)
  dueDate : Option (Option String)
deriving DecidableEq, Repr

/-- Body of POST /api/columns/:columnId/cards (createCardSchema,
lines 340-345). -/
structure CreateCardData where
  title : String
  description : Option String
  assignee : Option String
  dueDate : Option String
deriving DecidableEq, Repr

/-- The assignee block of PATCH /api/cards/:cardId, src/server/src/index.ts
lines 898-910: an absent field keeps the stored value, null or a blank
string clears it, anything else must resolve to a board member. -/
def computeNextAssignee (db : DB) (boardId : Nat) (existing : Option String) :
    Option (Option String) → Except ApiError (Option String)
  | none => .ok existing
  | some none => .ok none
  | some (some s) =>
    if jsTrim s = "" then .ok none
    else match resolveBoardAssigneeName db boardId s with
      | none => .error ⟨400, "Assignee must be an existing board member."⟩
      | some name => .ok (some name)

/-- The dueDate block of PATCH /api/cards/:cardId, lines 912-924. -/
def computeNextDueDate (existing : Option String) :
    Option (Option String) → Except ApiError (Option String)
  | none => .ok existing
  | some none => .ok none
  | some (some s) =>
    if jsTrim s = "" then .ok none
    else match normalizeDueDate s with
      | none => .error ⟨400, "Invalid dueDate. Use YYYY-MM-DD format."⟩
      | some nd => .ok (some nd)

/-- PATCH /api/cards/:cardId, src/server/src/index.ts lines 859-965. -/
def updateCard (db : DB) (now userId cardId : Nat) (data : UpdateCardData) :
    HandlerResult Card :=
  match findCard db cardId with
  | none => ⟨db, .error ⟨404, "Card not found"⟩, []⟩
  | some existing =>
    match getBoardRole db userId existing.boardId with
    | none => ⟨db, .error ⟨403, "Not authorized to update cards"⟩, []⟩
    | some role =>
      if canWrite role then
        let nextTitle := data.title.getD existing.title
        let nextDescription := data.description.getD existing.description
        match computeNextAssignee db existing.boardId existing.assignee data.assignee with
        | .error e => ⟨db, .error e, []⟩
        | .ok nextAssignee =>
          match computeNextDueDate existing.dueDate data.dueDate with
          | .error e => ⟨db, .error e, []⟩
          | .ok nextDueDate =>
            if nextTitle == existing.title && nextDescription == existing.description &&
                nextAssignee == existing.assignee && nextDueDate == existing.dueDate then
              ⟨db, .ok existing, []⟩
            else
              let updated := { existing with
                title := nextTitle, description := nextDescription,
                assignee := nextAssignee, dueDate := nextDueDate }
              let db2 := { db with
                cards := db.cards.map (fun c => if c.id == cardId then updated else c) }
              let db3 := logActivity db2 existing.boardId userId "card" (some cardId)
                "updated" ("Updated card \"" ++ nextTitle ++ "\"") now
              ⟨db3, .ok updated, [.boardChanged existing.boardId "card_updated"]⟩
      else ⟨db, .error ⟨403, "Not authorized to update cards"⟩, []⟩

/-- ORDER BY position ASC, id ASC on (position, id) pairs. -/
def pairLe (a b : Int × Nat) : Prop :=
  a.1 < b.1 ∨ (a.1 = b.1 ∧ a.2 ≤ b.2)

instance : DecidableRel pairLe := fun a b => by
  unfold pairLe
  infer_instance

instance : IsTotal (Int × Nat) pairLe :=
  ⟨fun a b => by unfold pairLe; omega⟩

instance : IsTrans (Int × Nat) pairLe :=
  ⟨fun a b c hab hbc => by unfold pairLe at *; omega⟩

instance : IsAntisymm (Int × Nat) pairLe :=
  ⟨fun a b hab hba => by
    unfold pairLe at hab hba
    have h1 : a.1 = b.1 := by omega
    have h2 : a.2 = b.2 := by omega
    exact Prod.ext h1 h2⟩

def pairFn (c : Card) : Int × Nat := (c.position, c.id)

/-- The (position, id) pairs of the cards of one column, in table order. -/
def colPairs (db : DB) (colId : Nat) : List (Int × Nat) :=
  (db.cards.filter (fun c => c.columnId == colId)).map pairFn

/-- SELECT id FROM cards WHERE column_id = colId ORDER BY position ASC,
id ASC (lines 1048-1053 and 1063-1067), as sorted (position, id) pairs. -/
def sortedColPairs (db : DB) (colId : Nat) : List (Int × Nat) :=
  List.insertionSort pairLe (colPairs db colId)

def sortedCardIds (db : DB) (colId : Nat) : List Nat :=
  (sortedColPairs db colId).map Prod.snd

/-- First index of an id in a list. -/
def listIndexOf : List Nat → Nat → Option Nat
  | [], _ => none
  | x :: xs, a => if x = a then some 0 else (listIndexOf xs a).map (· + 1)

/-- One card under the renumbering UPDATE loop: the card listed at index i
receives position (i+1)*1000, others are untouched. -/
def rnStep (ids : List Nat) (c : Card) : Card :=
  match listIndexOf ids c.id with
  | some i => { c with position := ((i : Int) + 1) * 1000 }
  | none => c

/-- The renumbering loops of the move handler (lines 1059-1061 and
1070-1073). The listed ids are pairwise distinct rows, so the sequential
single-row UPDATE statements equal this one pass over the table. -/
def renumberCards (cards : List Card) (ids : List Nat) : List Card :=
  cards.map (rnStep ids)

/-- The column change of the move, line 1046: set the moved card's column. -/
def mvStep (cardId toColumnId : Nat) (c : Card) : Card :=
  if c.id == cardId then { c with columnId := toColumnId } else c

/-- The store after the UPDATE of line 1046. -/
def moveDb1 (db : DB) (cardId toColumnId : Nat) : DB :=
  { db with cards := db.cards.map (mvStep cardId toColumnId) }

/-- The destination list without the moved id, lines 1048-1055. -/
def moveTargetIds (db : DB) (cardId toColumnId : Nat) : List Nat :=
  (sortedCardIds (moveDb1 db cardId toColumnId) toColumnId).filter (fun i => i != cardId)

/-- The destination list with the moved id spliced in at the clamped index,
lines 1056-1057. -/
def moveIds (db : DB) (cardId toColumnId toPosition : Nat) : List Nat :=
  List.insertIdx (min toPosition (moveTargetIds db cardId toColumnId).length) cardId
    (moveTargetIds db cardId toColumnId)

/-- The store after the destination renumbering loop, lines 1059-1061. -/
def moveDb2 (db : DB) (cardId toColumnId toPosition : Nat) : DB :=
  { moveDb1 db cardId toColumnId with
    cards := renumberCards (moveDb1 db cardId toColumnId).cards
      (moveIds db cardId toColumnId toPosition) }

/-- The source list read after the destination renumber, lines 1063-1067. -/
def moveSourceIds (db : DB) (cardId toColumnId toPosition srcColumnId : Nat) : List Nat :=
  sortedCardIds (moveDb2 db cardId toColumnId toPosition) srcColumnId

/-- The store after the source renumbering loop, lines 1070-1073. -/
def moveDb3 (db : DB) (cardId toColumnId toPosition srcColumnId : Nat) : DB :=
  { moveDb2 db cardId toColumnId toPosition with
    cards := renumberCards (moveDb2 db cardId toColumnId toPosition).cards
      (moveSourceIds db cardId toColumnId toPosition srcColumnId) }

/-- The transaction body of POST /api/cards/:cardId/move,
src/server/src/index.ts lines 1021-1081 (between BEGIN and COMMIT):
validation, the column change, the renumbering of the target and the source
lists, and the reselect of the moved card. Returns the new state, the
original card row and the reselected moved row. The 500 arm models the
reselect finding no row, which cannot happen when card ids are unique. -/
def moveCardTx (db : DB) (userId cardId toColumnId toPosition : Nat) :
    Except ApiError (DB × Card × Card) :=
  match findCard db cardId with
  | none => .error ⟨404, "Card not found"⟩
  | some card =>
    match getBoardRole db userId card.boardId with
    | none => .error ⟨403, "Not authorized to move cards"⟩
    | some role =>
      if canWrite role then
        match findColumn db toColumnId with
        | none => .error ⟨400, "Target column is invalid for this board"⟩
        | some target =>
          if target.boardId == card.boardId then
            match findCard (moveDb3 db cardId toColumnId toPosition card.columnId) cardId with
            | none => .error ⟨500, "Internal server error"⟩
            | some moved =>
              .ok (moveDb3 db cardId toColumnId toPosition card.columnId, card, moved)
          else .error ⟨400, "Target column is invalid for this board"⟩
      else .error ⟨403, "Not authorized to move cards"⟩

/-- POST /api/cards/:cardId/move, lines 1008-1101: run the transaction;
after COMMIT, log the activity with action "moved" as a separate statement
and broadcast card_moved; a failed transaction rolls back to the original
state. -/
def moveCard (db : DB) (now userId cardId toColumnId toPosition : Nat) :
    HandlerResult Card :=
  match moveCardTx db userId cardId toColumnId toPosition with
  | .error e => ⟨db, .error e, []⟩
  | .ok (db3, card, moved) =>
    let db4 := logActivity db3 card.boardId userId "card" (some cardId) "moved"
      ("Moved card \"" ++ card.title ++ "\"") now
    ⟨db4, .ok moved, [.boardChanged card.boardId "card_moved"]⟩

/-- POST /api/boards/:boardId/columns, lines 685-730; the two authorization
failure arms carry distinct messages. -/
def createColumn (db : DB) (now userId boardId : Nat) (title : String) :
    HandlerResult Column :=
  match getBoardRole db userId boardId with
  | none => ⟨db, .error ⟨403, "Not authorized for this board"⟩, []⟩
  | some role =>
    if canWrite role then
      let maxPosition := (db.columns.filter (fun c => c.boardId == boardId)).foldl
        (fun acc c => max acc c.position) 0
      let column : Column := ⟨db.nextColumnId, boardId, title, maxPosition + 1000⟩
      let db2 := { db with
        columns := db.columns ++ [column],
        nextColumnId := db.nextColumnId + 1 }
      let db3 := logActivity db2 boardId userId "column" (some column.id) "created"
        ("Created column \"" ++ title ++ "\"") now
      ⟨db3, .ok column, [.boardChanged boardId "column_created"]⟩
    else ⟨db, .error ⟨403, "Board role cannot modify columns"⟩, []⟩

/-- The dueDate validation of POST /api/columns/:columnId/cards,
lines 814-821. -/
def createDueDate (field : Option String) : Except ApiError (Option String) :=
  match field with
  | none => .ok none
  | some s =>
    match normalizeDueDate s with
    | none => .error ⟨400, "Invalid dueDate. Use YYYY-MM-DD format."⟩
    | some nd => .ok (some nd)

/-- The assignee validation of POST /api/columns/:columnId/cards,
lines 823-830. -/
def createAssignee (db : DB) (boardId : Nat) (field : Option String) :
    Except ApiError (Option String) :=
  match field with
  | none => .ok none
  | some s =>
    match resolveBoardAssigneeName db boardId s with
    | none => .error ⟨400, "Assignee must be an existing board member."⟩
    | some name => .ok (some name)

/-- POST /api/columns/:columnId/cards, lines 790-857. -/
def createCard (db : DB) (now userId columnId : Nat) (data : CreateCardData) :
    HandlerResult Card :=
  match findColumn db columnId with
  | none => ⟨db, .error ⟨404, "Column not found"⟩, []⟩
  | some column =>
    match getBoardRole db userId column.boardId with
    | none => ⟨db, .error ⟨403, "Not authorized to add cards"⟩, []⟩
    | some role =>
      if canWrite role then
        match createDueDate data.dueDate with
        | .error e => ⟨db, .error e, []⟩
        | .ok dueDate =>
          match createAssignee db column.boardId data.assignee with
          | .error e => ⟨db, .error e, []⟩
          | .ok assignee =>
            let maxPosition := (db.cards.filter (fun c => c.columnId == columnId)).foldl
              (fun acc c => max acc c.position) 0
            let card : Card := ⟨db.nextCardId, column.boardId, columnId, data.title,
              data.description.getD "", assignee, dueDate, maxPosition + 1000⟩
            let db2 := { db with
              cards := db.cards ++ [card],
              nextCardId := db.nextCardId + 1 }
            let db3 := logActivity db2 column.boardId userId "card" (some card.id)
              "created" ("Created card \"" ++ data.title ++ "\"") now
            ⟨db3, .ok card, [.boardChanged column.boardId "card_created"]⟩
      else ⟨db, .error ⟨403, "Not authorized to add cards"⟩, []⟩

/-- DELETE /api/cards/:cardId, lines 967-1006. -/
def deleteCard (db : DB) (now userId cardId : Nat) : HandlerResult Unit :=
  match findCard db cardId with
  | none => ⟨db, .error ⟨404, "Card not found"⟩, []⟩
  | some existing =>
    match getBoardRole db userId existing.boardId with
    | none => ⟨db, .error ⟨403, "Not authorized to delete cards"⟩, []⟩
    | some role =>
      if canWrite role then
        let db2 := { db with cards := db.cards.filter (fun c => c.id != cardId) }
        let db3 := logActivity db2 existing.boardId userId "card" (some cardId)
          "deleted" ("Deleted card \"" ++ existing.title ++ "\"") now
        ⟨db3, .ok (), [.boardChanged existing.boardId "card_deleted"]⟩
      else ⟨db, .error ⟨403, "Not authorized to delete cards"⟩, []⟩

/-- POST /api/cards/:cardId/comments, lines 1141-1185. -/
def addComment (db : DB) (now userId cardId : Nat) (body : String) :
    HandlerResult Comment :=
  match findCard db cardId with
  | none => ⟨db, .error ⟨404, "Card not found"⟩, []⟩
  | some card =>
    match getBoardRole db userId card.boardId with
    | none => ⟨db, .error ⟨403, "Not authorized to comment on this board"⟩, []⟩
    | some role =>
      if canWrite role then
        let comment : Comment :=
          ⟨db.nextCommentId, card.boardId, cardId, userId, jsTrim body, now⟩
        let db2 := { db with
          comments := db.comments ++ [comment],
          nextCommentId := db.nextCommentId + 1 }
        let db3 := logActivity db2 card.boardId userId "comment" (some comment.id)
          "created" ("Commented on card \"" ++ card.title ++ "\"") now
        ⟨db3, .ok comment, [.boardChanged card.boardId "comment_created"]⟩
      else ⟨db, .error ⟨403, "Not authorized to comment on this board"⟩, []⟩

def colLe (a b : Column) : Prop := pairLe (a.position, a.id) (b.position, b.id)

instance : DecidableRel colLe := fun a b => by
  unfold colLe
  infer_instance

def cardLe (a b : Card) : Prop := pairLe (a.position, a.id) (b.position, b.id)

instance : DecidableRel cardLe := fun a b => by
  unfold cardLe
  infer_instance

/-- Reverse-chronological activity order with id as a deterministic
tie-break, used only to pick one ORDER BY-admissible result in the read
handler; the full order semantics of the SQL is activitiesQueryResult. -/
def actDescLe (a b : Activity) : Prop :=
  b.createdAt < a.createdAt ∨ (a.createdAt = b.createdAt ∧ a.id ≤ b.id)

instance : DecidableRel actDescLe := fun a b => by
  unfold actDescLe
  infer_instance

def commentAscLe (a b : Comment) : Prop :=
  a.createdAt < b.createdAt ∨ (a.createdAt = b.createdAt ∧ a.id ≤ b.id)

instance : DecidableRel commentAscLe := fun a b => by
  unfold commentAscLe
  infer_instance

/-- GET /api/boards/:boardId, lines 508-568: role gate, then the board with
its columns and their cards; the SQL orders by position alone, the model
returns the (position, id) ordering among the admissible results. -/
def getBoardH (db : DB) (userId boardId : Nat) :
    HandlerResult (Board × BoardRole × List (Column × List Card)) :=
  match getBoardRole db userId boardId with
  | none => ⟨db, .error ⟨403, "Not authorized for this board"⟩, []⟩
  | some role =>
    match findBoard db boardId with
    | none => ⟨db, .error ⟨404, "Board not found"⟩, []⟩
    | some board =>
      let cols := List.insertionSort colLe (db.columns.filter (fun c => c.boardId == boardId))
      let cards := List.insertionSort cardLe (db.cards.filter (fun c => c.boardId == boardId))
      ⟨db, .ok (board, role,
        cols.map (fun col => (col, cards.filter (fun c => c.columnId == col.id)))), []⟩

/-- GET /api/boards/:boardId/members, lines 570-599. -/
def getMembersH (db : DB) (userId boardId : Nat) :
    HandlerResult (List (User × BoardRole)) :=
  match getBoardRole db userId boardId with
  | none => ⟨db, .error ⟨403, "Not authorized for this board"⟩, []⟩
  | some _ =>
    ⟨db, .ok (db.members.filterMap (fun mb =>
      if mb.boardId == boardId then
        (db.users.find? (fun u => u.id == mb.userId)).map (fun u => (u, mb.role))
      else none)), []⟩

/-- GET /api/boards/:boardId/activities, lines 601-633: clamp the page size
to 1..100 (default 30) and return the newest board activities. -/
def getActivitiesH (db : DB) (userId boardId : Nat) (rawLimit : Option Nat) :
    HandlerResult (List Activity) :=
  match getBoardRole db userId boardId with
  | none => ⟨db, .error ⟨403, "Not authorized for this board"⟩, []⟩
  | some _ =>
    let limit := min (max (rawLimit.getD 30) 1) 100
    ⟨db, .ok ((List.insertionSort actDescLe
      (db.activities.filter (fun a => a.boardId == boardId))).take limit), []⟩

/-- GET /api/cards/:cardId/comments, lines 1103-1139. -/
def getCommentsH (db : DB) (userId cardId : Nat) : HandlerResult (List Comment) :=
  match findCard db cardId with
  | none => ⟨db, .error ⟨404, "Card not found"⟩, []⟩
  | some card =>
    match getBoardRole db userId card.boardId with
    | none => ⟨db, .error ⟨403, "Not authorized for this board"⟩, []⟩
    | some _ =>
      ⟨db, .ok (List.insertionSort commentAscLe
        (db.comments.filter (fun c => c.cardId == cardId))), []⟩

/-- The durable database states a reader of the storage layer can observe
for one move request, in source order: the renumbering runs inside a
transaction that commits at line 1082 (all-or-nothing, ROLLBACK on error),
and logActivity then runs as a separate autocommit statement at line 1084.
A storage failure stops the request after any prefix, so the committed
transaction without its activity row is itself a durable state. -/
def moveDurableStates (db : DB) (now userId cardId toColumnId toPosition : Nat) :
    List DB :=
  match moveCardTx db userId cardId toColumnId toPosition with
  | .error _ => [db]
  | .ok (db3, _, _) =>
    [db, db3, (moveCard db now userId cardId toColumnId toPosition).db]

/-- Result relation of the activities query, lines 618-627: SQL returns the
first limit rows of some ordering of the board activities that is
nonincreasing in created_at; the ORDER BY names created_at alone, so every
permutation of the ties is an admissible result. -/
def activitiesQueryResult (db : DB) (boardId : Nat) (limit : Nat)
    (rows : List Activity) : Prop :=
  ∃ l : List Activity,
    l.Perm (db.activities.filter (fun a => a.boardId == boardId)) ∧
    l.Sorted (fun a b => b.createdAt ≤ a.createdAt) ∧ rows = l.take limit

/-- C2: an update-card request whose computed next field values (title,
description, assignee, dueDate) all equal the stored values performs no
database write, records no activity entry, emits no broadcast and returns
the unchanged card row with a success response. -/
theorem updateCard_noop (db : DB) (now userId cardId : Nat) (data : UpdateCardData)
    (existing : Card) (role : BoardRole)
    (hfind : findCard db cardId = some existing)
    (hrole : getBoardRole db userId existing.boardId = some role)
    (hw : canWrite role = true)
    (ht : data.title.getD existing.title = existing.title)
    (hd : data.description.getD existing.description = existing.description)
    (ha : computeNextAssignee db existing.boardId existing.assignee data.assignee =
      .ok existing.assignee)
    (hdd : computeNextDueDate existing.dueDate data.dueDate = .ok existing.dueDate) :
    updateCard db now userId cardId data = ⟨db, .ok existing, []⟩ := by
  rw [updateCard, hfind]
  dsimp only []
  rw [hrole]
  dsimp only []
  rw [if_pos hw, ha]
  dsimp only []
  rw [hdd]
  dsimp only []
  rw [ht, hd]
  simp only [beq_self_eq_true, Bool.and_self, if_true]

/-- Concrete store for the update and move witnesses: one owner, one board,
one column, one card. -/
def cardW : Card := ⟨1, 1, 1, "Valid Card", "", none, none, 1000⟩

def dbW : DB := {
  users := [⟨1, "Alice", "alice@example.com"⟩],
  boards := [⟨1, "Board"⟩],
  members := [⟨1, 1, .owner⟩],
  columns := [⟨1, 1, "To Do", 1000⟩, ⟨2, 1, "Done", 2000⟩],
  cards := [cardW],
  comments := [],
  activities := [],
  nextColumnId := 3,
  nextCardId := 2,
  nextCommentId := 1,
  nextActivityId := 1 }

/-- Witness for C2: an update request repeating the stored values changes
nothing, logs nothing, broadcasts nothing and succeeds. -/
theorem updateCard_noop_witness :
    updateCard dbW 5 1 1 ⟨some "Valid Card", none, none, none⟩ =
      ⟨dbW, .ok cardW, []⟩ :=
  updateCard_noop dbW 5 1 1 ⟨some "Valid Card", none, none, none⟩ cardW .owner
    rfl rfl rfl rfl rfl rfl rfl

/-- C10: in update-card, a blank (empty or whitespace-only) assignee or
dueDate string behaves exactly like an explicit null: the whole handler
result is identical; the null and blank forms clear the field (the field
computation yields ok none, neither a rejection nor a member resolution);
only an omitted field keeps the stored value. -/
theorem updateCard_blank_clears (db : DB) (now userId cardId : Nat)
    (data : UpdateCardData) (w : String) (boardId : Nat) (ex : Option String)
    (hw : jsTrim w = "") :
    (updateCard db now userId cardId { data with assignee := some (some w) } =
      updateCard db now userId cardId { data with assignee := some none }) ∧
    (updateCard db now userId cardId { data with dueDate := some (some w) } =
      updateCard db now userId cardId { data with dueDate := some none }) ∧
    computeNextAssignee db boardId ex (some (some w)) = .ok none ∧
    computeNextAssignee db boardId ex (some none) = .ok none ∧
    computeNextAssignee db boardId ex none = .ok ex ∧
    computeNextDueDate ex (some (some w)) = .ok none ∧
    computeNextDueDate ex (some none) = .ok none ∧
    computeNextDueDate ex none = .ok ex := by
  have hEqA : ∀ (b : Nat) (e : Option String),
      computeNextAssignee db b e (some (some w)) = computeNextAssignee db b e (some none) := by
    intro b e
    simp [computeNextAssignee, hw]
  have hEqD : ∀ (e : Option String),
      computeNextDueDate e (some (some w)) = computeNextDueDate e (some none) := by
    intro e
    simp [computeNextDueDate, hw]
  refine ⟨?_, ?_, by simp [computeNextAssignee, hw], rfl, rfl,
    by simp [computeNextDueDate, hw], rfl, rfl⟩
  · simp only [updateCard]
    cases hf : findCard db cardId with
    | none => rfl
    | some existing =>
      dsimp only []
      cases hr : getBoardRole db userId existing.boardId with
      | none => rfl
      | some role =>
        dsimp only []
        by_cases hcw : canWrite role = true
        · rw [if_pos hcw, if_pos hcw, hEqA existing.boardId existing.assignee]
        · rw [if_neg hcw, if_neg hcw]
  · simp only [updateCard]
    cases hf : findCard db cardId with
    | none => rfl
    | some existing =>
      dsimp only []
      cases hr : getBoardRole db userId existing.boardId with
      | none => rfl
      | some role =>
        dsimp only []
        by_cases hcw : canWrite role = true
        · rw [if_pos hcw, if_pos hcw, hEqD existing.dueDate]
        · rw [if_neg hcw, if_neg hcw]

/-- Witness for C10: a one-space assignee behaves exactly like an explicit
null on the whole handler, the blank clears the field, and an omitted
dueDate keeps the stored value. -/
theorem updateCard_blank_clears_witness :
    (updateCard dbW 5 1 1 { (⟨none, none, none, none⟩ : UpdateCardData) with
        assignee := some (some " ") } =
      updateCard dbW 5 1 1 { (⟨none, none, none, none⟩ : UpdateCardData) with
        assignee := some none }) ∧
    computeNextAssignee dbW 1 (some "Alice") (some (some " ")) = .ok none ∧
    computeNextDueDate (some "Alice") none = .ok (some "Alice") := by
  have h := updateCard_blank_clears dbW 5 1 1 ⟨none, none, none, none⟩ " " 1
    (some "Alice") (by decide)
  exact ⟨h.1, h.2.2.1, h.2.2.2.2.2.2.2⟩

theorem moveCardTx_ok {db : DB} {userId cardId toColumnId toPosition : Nat}
    {db3 : DB} {c m : Card}
    (h : moveCardTx db userId cardId toColumnId toPosition = .ok (db3, c, m)) :
    findCard db cardId = some c ∧ db3.activities = db.activities ∧
      db3.nextActivityId = db.nextActivityId := by
  rw [moveCardTx] at h
  cases hf : findCard db cardId with
  | none => rw [hf] at h; cases h
  | some card =>
    rw [hf] at h
    try dsimp only [] at h
    cases hr : getBoardRole db userId card.boardId with
    | none => rw [hr] at h; cases h
    | some role =>
      rw [hr] at h
      try dsimp only [] at h
      by_cases hcw : canWrite role = true
      · rw [if_pos hcw] at h
        cases hc : findColumn db toColumnId with
        | none => rw [hc] at h; cases h
        | some target =>
          rw [hc] at h
          try dsimp only [] at h
          by_cases hb : (target.boardId == card.boardId) = true
          · rw [if_pos hb] at h
            try dsimp only [] at h
            split at h
            · cases h
            · cases h
              exact ⟨rfl, rfl, rfl⟩
          · rw [if_neg hb] at h
            cases h
      · rw [if_neg hcw] at h
        cases h

/-- C3: every successful move-card request appends exactly one activity row
with action "moved" for the board of the moved card and broadcasts one
board_changed event to that board; the handler has no no-op suppression, so
this holds even when the computed column and positions equal the previous
values. -/
theorem moveCard_always_logs (db : DB) (now userId cardId toColumnId toPosition : Nat)
    (card moved : Card)
    (hfind : findCard db cardId = some card)
    (hok : (moveCard db now userId cardId toColumnId toPosition).resp = .ok moved) :
    (moveCard db now userId cardId toColumnId toPosition).db.activities =
      db.activities ++ [⟨db.nextActivityId, card.boardId, userId, "card", some cardId,
        "moved", "Moved card \"" ++ card.title ++ "\"", now⟩] ∧
    (moveCard db now userId cardId toColumnId toPosition).broadcasts =
      [.boardChanged card.boardId "card_moved"] := by
  rw [moveCard] at hok ⊢
  cases htx : moveCardTx db userId cardId toColumnId toPosition with
  | error e => rw [htx] at hok; cases hok
  | ok t =>
    obtain ⟨db3, c, m⟩ := t
    obtain ⟨hc, hact, hnid⟩ := moveCardTx_ok htx
    rw [hfind] at hc
    cases hc
    dsimp only []
    rw [logActivity]
    dsimp only []
    rw [hact, hnid]
    exact ⟨rfl, rfl⟩

/-- Witness for C3: moving the only card of its column onto its own index
recomputes the identical position, yet the activity with action "moved" and
the card_moved broadcast are still produced. -/
theorem moveCard_always_logs_witness :
    (moveCard dbW 7 1 1 1 0).db.activities =
      dbW.activities ++ [⟨dbW.nextActivityId, cardW.boardId, 1, "card", some 1, "moved",
        "Moved card \"" ++ cardW.title ++ "\"", 7⟩] ∧
    (moveCard dbW 7 1 1 1 0).broadcasts = [.boardChanged cardW.boardId "card_moved"] :=
  moveCard_always_logs dbW 7 1 1 1 0 cardW cardW rfl rfl

/-- C5: with role viewer, every modelled write endpoint (create column,
create card, update card, delete card, move card, add comment) returns a
403 denial and leaves the stored state unchanged, while every read endpoint
(board, members, activities, comments) succeeds; canWrite holds exactly for
the roles owner and member. -/
theorem viewer_role_gating (db : DB) (now userId boardId : Nat)
    (column : Column) (card : Card) (board : Board)
    (title body : String) (ccd : CreateCardData) (ucd : UpdateCardData)
    (toColumnId toPosition : Nat) (rawLimit : Option Nat)
    (hrole : getBoardRole db userId boardId = some .viewer)
    (hcol : findColumn db column.id = some column)
    (hcolb : column.boardId = boardId)
    (hcard : findCard db card.id = some card)
    (hcardb : card.boardId = boardId)
    (hboard : findBoard db boardId = some board) :
    createColumn db now userId boardId title =
      ⟨db, .error ⟨403, "Board role cannot modify columns"⟩, []⟩ ∧
    createCard db now userId column.id ccd =
      ⟨db, .error ⟨403, "Not authorized to add cards"⟩, []⟩ ∧
    updateCard db now userId card.id ucd =
      ⟨db, .error ⟨403, "Not authorized to update cards"⟩, []⟩ ∧
    deleteCard db now userId card.id =
      ⟨db, .error ⟨403, "Not authorized to delete cards"⟩, []⟩ ∧
    moveCard db now userId card.id toColumnId toPosition =
      ⟨db, .error ⟨403, "Not authorized to move cards"⟩, []⟩ ∧
    addComment db now userId card.id body =
      ⟨db, .error ⟨403, "Not authorized to comment on this board"⟩, []⟩ ∧
    (∃ v, (getBoardH db userId boardId).resp = .ok v) ∧
    (∃ v, (getMembersH db userId boardId).resp = .ok v) ∧
    (∃ v, (getActivitiesH db userId boardId rawLimit).resp = .ok v) ∧
    (∃ v, (getCommentsH db userId card.id).resp = .ok v) ∧
    (∀ r, canWrite r = true ↔ (r = .owner ∨ r = .member)) := by
  have hwv : canWrite .viewer = false := rfl
  refine ⟨?_, ?_, ?_, ?_, ?_, ?_, ?_, ?_, ?_, ?_, ?_⟩
  · rw [createColumn, hrole]
    dsimp only []
    rw [if_neg (by simp [hwv])]
  · rw [createCard, hcol]
    dsimp only []
    rw [hcolb, hrole]
    dsimp only []
    rw [if_neg (by simp [hwv])]
  · rw [updateCard, hcard]
    dsimp only []
    rw [hcardb, hrole]
    dsimp only []
    rw [if_neg (by simp [hwv])]
  · rw [deleteCard, hcard]
    dsimp only []
    rw [hcardb, hrole]
    dsimp only []
    rw [if_neg (by simp [hwv])]
  · have htx : moveCardTx db userId card.id toColumnId toPosition =
        .error ⟨403, "Not authorized to move cards"⟩ := by
      rw [moveCardTx, hcard]
      dsimp only []
      rw [hcardb, hrole]
      dsimp only []
      rw [if_neg (by simp [hwv])]
    rw [moveCard, htx]
  · rw [addComment, hcard]
    dsimp only []
    rw [hcardb, hrole]
    dsimp only []
    rw [if_neg (by simp [hwv])]
  · rw [getBoardH, hrole]
    dsimp only []
    rw [hboard]
    exact ⟨_, rfl⟩
  · rw [getMembersH, hrole]
    exact ⟨_, rfl⟩
  · rw [getActivitiesH, hrole]
    exact ⟨_, rfl⟩
  · rw [getCommentsH, hcard]
    dsimp only []
    rw [hcardb, hrole]
    exact ⟨_, rfl⟩
  · intro r
    cases r <;> simp [canWrite]

/-- Concrete store for the viewer-gating and denial witnesses: the owner is
user 1, user 6 is a viewer on board 1, user 5 has no membership. -/
def dbV : DB := {
  users := [⟨1, "Alice", "alice@example.com"⟩, ⟨6, "Vera", "vera@example.com"⟩],
  boards := [⟨1, "Board"⟩],
  members := [⟨1, 1, .owner⟩, ⟨1, 6, .viewer⟩],
  columns := [⟨1, 1, "To Do", 1000⟩, ⟨2, 1, "Done", 2000⟩],
  cards := [cardW],
  comments := [],
  activities := [],
  nextColumnId := 3,
  nextCardId := 2,
  nextCommentId := 1,
  nextActivityId := 1 }

/-- Witness for C5: the viewer user 6 is denied on the write endpoints and
succeeds on the reads of the concrete store. -/
theorem viewer_role_gating_witness :
    createColumn dbV 3 6 1 "New" =
      ⟨dbV, .error ⟨403, "Board role cannot modify columns"⟩, []⟩ ∧
    updateCard dbV 3 6 1 ⟨none, none, none, none⟩ =
      ⟨dbV, .error ⟨403, "Not authorized to update cards"⟩, []⟩ ∧
    moveCard dbV 3 6 1 2 0 =
      ⟨dbV, .error ⟨403, "Not authorized to move cards"⟩, []⟩ ∧
    (∃ v, (getBoardH dbV 6 1).resp = .ok v) ∧
    (canWrite .viewer = true ↔ (BoardRole.viewer = .owner ∨ BoardRole.viewer = .member)) := by
  have h := viewer_role_gating dbV 3 6 1 ⟨1, 1, "To Do", 1000⟩ cardW ⟨1, "Board"⟩
    "New" "body" ⟨"T", none, none, none⟩ ⟨none, none, none, none⟩ 2 0 none
    rfl rfl rfl rfl rfl rfl
  exact ⟨h.1, h.2.2.1, h.2.2.2.2.1, h.2.2.2.2.2.2.1, h.2.2.2.2.2.2.2.2.2.2 .viewer⟩

/-- Concrete store for the C8 counterexample: user 5 has no membership row
on board 1 and user 6 is a viewer there. -/
def dbC8 : DB := dbV

/-- Counterexample to C8 as stated: on the update-card endpoint the denial
for a user with no membership is byte-for-byte the same as the denial for a
member whose role forbids the action, so the two causes are not
distinguishable on every mutating endpoint. -/
theorem role_denials_counterexample :
    getBoardRole dbC8 5 1 = none ∧
    getBoardRole dbC8 6 1 = some .viewer ∧
    (updateCard dbC8 0 5 1 ⟨none, none, none, none⟩).resp =
      .error ⟨403, "Not authorized to update cards"⟩ ∧
    (updateCard dbC8 0 6 1 ⟨none, none, none, none⟩).resp =
      .error ⟨403, "Not authorized to update cards"⟩ :=
  ⟨rfl, rfl, rfl, rfl⟩

/-- C8 (amended): the create-column endpoint distinguishes the two denial
causes with distinct messages, but the other modelled mutating endpoints
(create card, update card, delete card, move card, add comment) return one
identical denial for absent membership and for an insufficient role. -/
theorem role_denials_partially_distinguished (db : DB) (now u1 u2 boardId : Nat)
    (title body : String) (card : Card) (column : Column) (ucd : UpdateCardData)
    (ccd : CreateCardData) (tc tp : Nat)
    (h1 : getBoardRole db u1 boardId = none)
    (h2 : getBoardRole db u2 boardId = some .viewer)
    (hcard : findCard db card.id = some card) (hcb : card.boardId = boardId)
    (hcol : findColumn db column.id = some column) (hcolb : column.boardId = boardId) :
    createColumn db now u1 boardId title =
      ⟨db, .error ⟨403, "Not authorized for this board"⟩, []⟩ ∧
    createColumn db now u2 boardId title =
      ⟨db, .error ⟨403, "Board role cannot modify columns"⟩, []⟩ ∧
    (updateCard db now u1 card.id ucd).resp = (updateCard db now u2 card.id ucd).resp ∧
    (createCard db now u1 column.id ccd).resp = (createCard db now u2 column.id ccd).resp ∧
    (deleteCard db now u1 card.id).resp = (deleteCard db now u2 card.id).resp ∧
    (moveCard db now u1 card.id tc tp).resp = (moveCard db now u2 card.id tc tp).resp ∧
    (addComment db now u1 card.id body).resp = (addComment db now u2 card.id body).resp := by
  have hwv : canWrite .viewer = false := rfl
  refine ⟨?_, ?_, ?_, ?_, ?_, ?_, ?_⟩
  · rw [createColumn, h1]
  · rw [createColumn, h2]
    dsimp only []
    rw [if_neg (by simp [hwv])]
  · rw [updateCard, updateCard, hcard]
    dsimp only []
    rw [hcb, h1, h2]
    dsimp only []
    rw [if_neg (by simp [hwv])]
  · rw [createCard, createCard, hcol]
    dsimp only []
    rw [hcolb, h1, h2]
    dsimp only []
    rw [if_neg (by simp [hwv])]
  · rw [deleteCard, deleteCard, hcard]
    dsimp only []
    rw [hcb, h1, h2]
    dsimp only []
    rw [if_neg (by simp [hwv])]
  · have htx1 : moveCardTx db u1 card.id tc tp =
        .error ⟨403, "Not authorized to move cards"⟩ := by
      rw [moveCardTx, hcard]
      dsimp only []
      rw [hcb, h1]
    have htx2 : moveCardTx db u2 card.id tc tp =
        .error ⟨403, "Not authorized to move cards"⟩ := by
      rw [moveCardTx, hcard]
      dsimp only []
      rw [hcb, h2]
      dsimp only []
      rw [if_neg (by simp [hwv])]
    rw [moveCard, moveCard, htx1, htx2]
  · rw [addComment, addComment, hcard]
    dsimp only []
    rw [hcb, h1, h2]
    dsimp only []
    rw [if_neg (by simp [hwv])]

/-- Witness for C8 (amended) on the concrete store: distinct create-column
denials for user 5 (no membership) and user 6 (viewer); identical move
denials for both. -/
theorem role_denials_partially_distinguished_witness :
    createColumn dbV 0 5 1 "New" =
      ⟨dbV, .error ⟨403, "Not authorized for this board"⟩, []⟩ ∧
    createColumn dbV 0 6 1 "New" =
      ⟨dbV, .error ⟨403, "Board role cannot modify columns"⟩, []⟩ ∧
    (moveCard dbV 0 5 1 2 0).resp = (moveCard dbV 0 6 1 2 0).resp := by
  have h := role_denials_partially_distinguished dbV 0 5 6 1 "New" "body" cardW
    ⟨1, 1, "To Do", 1000⟩ ⟨none, none, none, none⟩ ⟨"T", none, none, none⟩ 2 0
    rfl rfl rfl rfl rfl rfl
  exact ⟨h.1, h.2.1, h.2.2.2.2.2.1⟩

/-- Counterexample to C6 as stated: the activity row of a move is inserted
by a separate statement after COMMIT (line 1082 versus line 1084), so among
the durable states of a successful cross-column move there is one whose
cards already show the committed renumbering while no activity with action
"moved" exists: a storage failure at that point leaves the committed
mutation without its audit record. -/
theorem move_activity_commit_counterexample :
    (moveDurableStates dbV 9 1 1 2 0).length = 3 ∧
    ∃ s ∈ moveDurableStates dbV 9 1 1 2 0,
      s.cards ≠ dbV.cards ∧ ∀ a ∈ s.activities, a.action ≠ "moved" := by
  decide

/-- C6 (amended): the move transaction is all-or-nothing: every durable
state carries either the untouched original card table or the fully
renumbered result, never a partial renumbering, and the state right after
the commit still has the original activities; the activity row is appended
by a separate statement after the commit, so the committed mutation is
durable before its activity record exists. -/
theorem move_atomicity (db : DB) (now userId cardId toColumnId toPosition : Nat) :
    (∀ s ∈ moveDurableStates db now userId cardId toColumnId toPosition,
      s.cards = db.cards ∨
        s.cards = (moveCard db now userId cardId toColumnId toPosition).db.cards) ∧
    (∀ s ∈ moveDurableStates db now userId cardId toColumnId toPosition,
      s.activities = db.activities ∨
        s.activities = (moveCard db now userId cardId toColumnId toPosition).db.activities) ∧
    (∀ db3 c m, moveCardTx db userId cardId toColumnId toPosition = .ok (db3, c, m) →
      db3.activities = db.activities ∧
      moveDurableStates db now userId cardId toColumnId toPosition =
        [db, db3, (moveCard db now userId cardId toColumnId toPosition).db]) := by
  cases htx : moveCardTx db userId cardId toColumnId toPosition with
  | error e =>
    simp only [moveDurableStates, moveCard, htx]
    refine ⟨?_, ?_, ?_⟩
    · intro s hs
      rw [List.mem_singleton] at hs
      exact Or.inl (by rw [hs])
    · intro s hs
      rw [List.mem_singleton] at hs
      exact Or.inl (by rw [hs])
    · intro db3 c m hcontra
      cases hcontra
  | ok t =>
    obtain ⟨db3, c, m⟩ := t
    obtain ⟨hcfind, hact, hnid⟩ := moveCardTx_ok htx
    simp only [moveDurableStates, moveCard, htx]
    refine ⟨?_, ?_, ?_⟩
    · intro s hs
      simp only [List.mem_cons, List.not_mem_nil, or_false] at hs
      rcases hs with rfl | rfl | rfl
      · exact Or.inl rfl
      · exact Or.inr rfl
      · exact Or.inr rfl
    · intro s hs
      simp only [List.mem_cons, List.not_mem_nil, or_false] at hs
      rcases hs with rfl | rfl | rfl
      · exact Or.inl rfl
      · exact Or.inl hact
      · exact Or.inr rfl
    · intro db3x cx mx heq
      cases heq
      exact ⟨hact, rfl⟩

/-- Witness for C6 (amended): the durable state after the commit of a
concrete move carries the fully renumbered card table, not a partial one. -/
theorem move_atomicity_witness :
    ((moveDurableStates dbV 9 1 1 2 0).getD 1 dbV).cards = dbV.cards ∨
      ((moveDurableStates dbV 9 1 1 2 0).getD 1 dbV).cards =
        (moveCard dbV 9 1 1 2 0).db.cards :=
  (move_atomicity dbV 9 1 1 2 0).1 _ (by decide)

def actA : Activity := ⟨1, 1, 1, "card", some 1, "created", "Created card", 5⟩

def actB : Activity := ⟨2, 1, 1, "card", some 1, "updated", "Updated card", 5⟩

/-- A store whose board 1 has two activities with equal creation time. -/
def dbC7 : DB := { dbV with activities := [actA, actB], nextActivityId := 3 }

/-- Counterexample to C7 as stated: the activities query orders by
created_at alone, with no tie-break on the insertion id, so a result
listing the tied newer id after the older one is admissible; returning ties
broken by insertion id is not guaranteed. -/
theorem activities_tiebreak_counterexample :
    activitiesQueryResult dbC7 1 30 [actB, actA] ∧
    ¬ List.Pairwise (fun x y => y.createdAt < x.createdAt ∨
        (x.createdAt = y.createdAt ∧ x.id < y.id)) [actB, actA] := by
  constructor
  · exact ⟨[actB, actA], by decide, by decide, rfl⟩
  · decide

/-- C7 (amended): every admissible result of the activities query is in
reverse-chronological order of creation time (nonincreasing created_at);
the query has no tie-break, so the order among entries with equal creation
time is unspecified. -/
theorem activities_reverse_chronological (db : DB) (boardId limit : Nat)
    (rows : List Activity) (h : activitiesQueryResult db boardId limit rows) :
    rows.Sorted (fun a b => b.createdAt ≤ a.createdAt) := by
  obtain ⟨l, _hperm, hsort, hrows⟩ := h
  rw [hrows]
  exact hsort.sublist (List.take_sublist limit l)

/-- Witness for C7 (amended): a concrete admissible result of the query on
the tied store is nonincreasing in created_at. -/
theorem activities_reverse_chronological_witness :
    List.Sorted (fun a b => b.createdAt ≤ a.createdAt) [actA, actB] :=
  activities_reverse_chronological dbC7 1 30 [actA, actB]
    ⟨[actA, actB], by decide, by decide, rfl⟩

theorem listIndexOf_cons_self (x : Nat) (xs : List Nat) :
    listIndexOf (x :: xs) x = some 0 := by
  simp [listIndexOf]

theorem listIndexOf_cons_ne {x y : Nat} (h : x ≠ y) (xs : List Nat) :
    listIndexOf (x :: xs) y = (listIndexOf xs y).map (· + 1) := by
  simp [listIndexOf, h]

theorem mem_of_listIndexOf_some : ∀ {l : List Nat} {x i : Nat},
    listIndexOf l x = some i → x ∈ l
  | [], x, i, h => by simp [listIndexOf] at h
  | y :: ys, x, i, h => by
    by_cases hy : y = x
    · exact hy ▸ List.mem_cons_self y ys
    · rw [listIndexOf_cons_ne hy] at h
      cases hi : listIndexOf ys x with
      | none => rw [hi] at h; cases h
      | some j => exact List.mem_cons_of_mem _ (mem_of_listIndexOf_some hi)

theorem listIndexOf_eq_none {l : List Nat} {x : Nat} (h : x ∉ l) :
    listIndexOf l x = none := by
  induction l with
  | nil => rfl
  | cons y ys ih =>
    have hy : y ≠ x := fun he => h (he ▸ List.mem_cons_self y ys)
    rw [listIndexOf_cons_ne hy, ih (fun hm => h (List.mem_cons_of_mem _ hm))]
    rfl

theorem listIndexOf_isSome_of_mem {l : List Nat} {x : Nat} (h : x ∈ l) :
    ∃ i, listIndexOf l x = some i := by
  induction l with
  | nil => simp at h
  | cons y ys ih =>
    by_cases hy : y = x
    · subst hy
      exact ⟨0, listIndexOf_cons_self y ys⟩
    · rcases List.mem_cons.mp h with h1 | h1
      · exact absurd h1.symm hy
      · obtain ⟨i, hi⟩ := ih h1
        exact ⟨i + 1, by rw [listIndexOf_cons_ne hy, hi]; rfl⟩

theorem listIndexOf_get : ∀ {l : List Nat}, l.Nodup →
    ∀ (i : Nat) (hi : i < l.length), listIndexOf l (l.get ⟨i, hi⟩) = some i
  | [], _, i, hi => by simp at hi
  | y :: ys, hnd, 0, hi => listIndexOf_cons_self y ys
  | y :: ys, hnd, j + 1, hi => by
    have hny : y ∉ ys := (List.nodup_cons.mp hnd).1
    have hget : (y :: ys).get ⟨j + 1, hi⟩ = ys.get ⟨j, by simpa using hi⟩ := rfl
    rw [hget]
    have hy : y ≠ ys.get ⟨j, by simpa using hi⟩ := by
      intro he
      exact hny (he ▸ ys.get_mem _ _)
    rw [listIndexOf_cons_ne hy,
      listIndexOf_get (List.nodup_cons.mp hnd).2 j (by simpa using hi)]
    rfl

/-- The (position, id) pairs the renumbering loop writes for a list,
starting at offset o: entry i receives position (o + i + 1) * 1000. -/
def gapPairs : Nat → List Nat → List (Int × Nat)
  | _, [] => []
  | o, x :: xs => (((o : Int) + 1) * 1000, x) :: gapPairs (o + 1) xs

theorem gapPairs_snd : ∀ (o : Nat) (l : List Nat), (gapPairs o l).map Prod.snd = l
  | _, [] => rfl
  | o, x :: xs => by
    rw [gapPairs, List.map_cons, gapPairs_snd (o + 1) xs]

theorem gapPairs_fst_lb : ∀ (o : Nat) (l : List Nat) (p : Int × Nat),
    p ∈ gapPairs o l → ((o : Int) + 1) * 1000 ≤ p.1
  | o, [], p, h => by simp [gapPairs] at h
  | o, x :: xs, p, h => by
    rw [gapPairs] at h
    rcases List.mem_cons.mp h with rfl | h2
    · simp
    · have := gapPairs_fst_lb (o + 1) xs p h2
      push_cast at this ⊢
      omega

theorem gapPairs_sorted : ∀ (o : Nat) (l : List Nat), List.Sorted pairLe (gapPairs o l)
  | _, [] => List.sorted_nil
  | o, x :: xs => by
    rw [gapPairs, List.sorted_cons]
    constructor
    · intro p hp
      have := gapPairs_fst_lb (o + 1) xs p hp
      unfold pairLe
      left
      push_cast at this ⊢
      omega
    · exact gapPairs_sorted (o + 1) xs

/-- The position the renumbering loop assigns to an id, read off its index
in the renumber list. -/
def idxPos (l : List Nat) (x : Nat) : Int :=
  ((((listIndexOf l x).getD 0 : Nat) : Int) + 1) * 1000

def idxPair (l : List Nat) (x : Nat) : Int × Nat := (idxPos l x, x)

theorem map_idxPair_eq_gapPairs : ∀ (l : List Nat) (full : List Nat) (o : Nat),
    l.Nodup →
    (∀ x j, listIndexOf l x = some j → listIndexOf full x = some (o + j)) →
    l.map (idxPair full) = gapPairs o l
  | [], _, _, _, _ => rfl
  | x :: xs, full, o, hnd, hcompat => by
    rw [List.map_cons, gapPairs]
    have hx : listIndexOf full x = some o := by
      have := hcompat x 0 (listIndexOf_cons_self x xs)
      simpa using this
    have hhead : idxPair full x = (((o : Int) + 1) * 1000, x) := by
      rw [idxPair, idxPos, hx]
      rfl
    rw [hhead]
    congr 1
    apply map_idxPair_eq_gapPairs xs full (o + 1) (List.nodup_cons.mp hnd).2
    intro y j hy
    have hyx : x ≠ y := by
      intro he
      exact (List.nodup_cons.mp hnd).1 (he ▸ mem_of_listIndexOf_some hy)
    have hfull := hcompat y (j + 1) (by rw [listIndexOf_cons_ne hyx, hy]; rfl)
    rw [hfull]
    congr 1
    omega

theorem sort_eq_of_perm {l1 l2 : List (Int × Nat)} (h : l1.Perm l2) :
    List.insertionSort pairLe l1 = List.insertionSort pairLe l2 :=
  List.eq_of_perm_of_sorted
    (((List.perm_insertionSort pairLe l1).trans h).trans
      (List.perm_insertionSort pairLe l2).symm)
    (List.sorted_insertionSort pairLe l1) (List.sorted_insertionSort pairLe l2)

theorem sort_eq_of_perm_sorted {l1 l2 : List (Int × Nat)} (h : l1.Perm l2)
    (h2 : List.Sorted pairLe l2) : List.insertionSort pairLe l1 = l2 :=
  List.eq_of_perm_of_sorted ((List.perm_insertionSort pairLe l1).trans h)
    (List.sorted_insertionSort pairLe l1) h2

theorem sort_filter (l : List (Int × Nat)) (p : Int × Nat → Bool) :
    (List.insertionSort pairLe l).filter p = List.insertionSort pairLe (l.filter p) :=
  List.eq_of_perm_of_sorted
    (((List.perm_insertionSort pairLe l).filter p).trans
      (List.perm_insertionSort pairLe (l.filter p)).symm)
    ((List.sorted_insertionSort pairLe l).filter p)
    (List.sorted_insertionSort pairLe (l.filter p))

theorem insertIdx_perm (a : Nat) : ∀ (n : Nat) (l : List Nat), n ≤ l.length →
    (List.insertIdx n a l).Perm (a :: l)
  | 0, l, _ => by
    rw [List.insertIdx_zero]
  | n + 1, [], h => by simp at h
  | n + 1, x :: xs, h => by
    rw [List.insertIdx_succ_cons]
    exact ((insertIdx_perm a n xs (by simpa using h)).cons x).trans
      (List.Perm.swap a x xs)

theorem find?_id_map {f : Card → Card} (hf : ∀ c, (f c).id = c.id)
    (cards : List Card) (x : Nat) :
    (cards.map f).find? (fun c => c.id == x) =
      (cards.find? (fun c => c.id == x)).map f := by
  induction cards with
  | nil => rfl
  | cons c rest ih =>
    rw [List.map_cons]
    by_cases hcx : (c.id == x) = true
    · have hL : List.find? (fun d => d.id == x) (f c :: rest.map f) = some (f c) :=
        List.find?_cons_of_pos _ (by rw [hf c]; exact hcx)
      have hR : List.find? (fun d => d.id == x) (c :: rest) = some c :=
        List.find?_cons_of_pos _ hcx
      rw [hL, hR]
      rfl
    · have hL : List.find? (fun d => d.id == x) (f c :: rest.map f) =
          List.find? (fun d => d.id == x) (rest.map f) :=
        List.find?_cons_of_neg _ (by rw [hf c]; exact hcx)
      have hR : List.find? (fun d => d.id == x) (c :: rest) =
          List.find? (fun d => d.id == x) rest :=
        List.find?_cons_of_neg _ hcx
      rw [hL, hR]
      exact ih

theorem mvStep_id (cardId toColumnId : Nat) (c : Card) :
    (mvStep cardId toColumnId c).id = c.id := by
  by_cases h : (c.id == cardId) = true <;> simp [mvStep, h]

theorem rnStep_id (ids : List Nat) (c : Card) : (rnStep ids c).id = c.id := by
  cases h : listIndexOf ids c.id <;> simp [rnStep, h]

theorem rnStep_columnId (ids : List Nat) (c : Card) :
    (rnStep ids c).columnId = c.columnId := by
  cases h : listIndexOf ids c.id <;> simp [rnStep, h]

/-- The renumbering step read off on (position, id) pairs. -/
def puStep (ids : List Nat) (p : Int × Nat) : Int × Nat :=
  match listIndexOf ids p.2 with
  | some i => (((i : Int) + 1) * 1000, p.2)
  | none => p

theorem puStep_snd (ids : List Nat) (p : Int × Nat) : (puStep ids p).2 = p.2 := by
  cases h : listIndexOf ids p.2 <;> simp [puStep, h]

theorem pairFn_rnStep (ids : List Nat) (c : Card) :
    pairFn (rnStep ids c) = puStep ids (pairFn c) := by
  cases h : listIndexOf ids c.id <;> simp [rnStep, puStep, pairFn, h]

/-- The ids of the cards of one column, in table order. -/
def colIds (db : DB) (col : Nat) : List Nat := (colPairs db col).map Prod.snd

theorem colIds_eq (db : DB) (col : Nat) :
    colIds db col = (db.cards.filter (fun c => c.columnId == col)).map (fun c => c.id) := by
  rw [colIds, colPairs, List.map_map]
  rfl

theorem colPairs_renumber (d : DB) (ids : List Nat) (col : Nat) :
    colPairs { d with cards := renumberCards d.cards ids } col =
      (colPairs d col).map (puStep ids) := by
  show ((d.cards.map (rnStep ids)).filter (fun c => c.columnId == col)).map pairFn =
    ((d.cards.filter (fun c => c.columnId == col)).map pairFn).map (puStep ids)
  rw [List.filter_map]
  have hcong : ∀ c ∈ d.cards,
      ((fun c => c.columnId == col) ∘ rnStep ids) c = (fun c => c.columnId == col) c :=
    fun c _ => by simp only [Function.comp_apply, rnStep_columnId]
  rw [List.filter_congr hcong, List.map_map, List.map_map]
  exact List.map_congr_left (fun c _ => by
    simp only [Function.comp_apply, pairFn_rnStep])

theorem moveDb1_filter_src (cards : List Card) (cardId toColumnId A : Nat)
    (hA : A ≠ toColumnId) :
    (cards.map (mvStep cardId toColumnId)).filter (fun c => c.columnId == A) =
      (cards.filter (fun c => c.columnId == A)).filter (fun c => c.id != cardId) := by
  induction cards with
  | nil => rfl
  | cons c rest ih =>
    rw [List.map_cons, List.filter_cons, List.filter_cons]
    by_cases hid : c.id = cardId
    · have hmc : mvStep cardId toColumnId c = { c with columnId := toColumnId } := by
        simp [mvStep, hid]
      rw [hmc]
      have h1 : (({ c with columnId := toColumnId } : Card).columnId == A) = false := by
        simp [Ne.symm hA]
      rw [h1, if_neg (by decide)]
      by_cases hcA : (c.columnId == A) = true
      · rw [if_pos hcA, List.filter_cons]
        have h2 : (c.id != cardId) = false := by simp [hid]
        rw [h2, if_neg (by decide)]
        exact ih
      · rw [if_neg hcA]
        exact ih
    · have hmc : mvStep cardId toColumnId c = c := by simp [mvStep, hid]
      rw [hmc]
      by_cases hcA : (c.columnId == A) = true
      · rw [if_pos hcA, if_pos hcA, List.filter_cons]
        have h2 : (c.id != cardId) = true := by simp [hid]
        rw [h2, if_pos rfl, ih]
      · rw [if_neg hcA, if_neg hcA]
        exact ih

theorem moveDb1_filter_tgt : ∀ (cards : List Card) (cardId toColumnId : Nat)
    (card : Card), card ∈ cards → card.id = cardId →
    (cards.map (fun c => c.id)).Nodup → card.columnId ≠ toColumnId →
    ((cards.map (mvStep cardId toColumnId)).filter
        (fun c => c.columnId == toColumnId)).Perm
      ({ card with columnId := toColumnId } ::
        cards.filter (fun c => c.columnId == toColumnId))
  | [], _, _, _, hmem, _, _, _ => by simp at hmem
  | c :: rest, cardId, toColumnId, card, hmem, hid, hnd, hcol => by
    rw [List.map_cons, List.filter_cons, List.filter_cons]
    rcases List.mem_cons.mp hmem with rfl | hmem2
    · have hmc : mvStep cardId toColumnId card = { card with columnId := toColumnId } := by
        simp [mvStep, hid]
      rw [hmc]
      have hndc : card.id ∉ rest.map (fun c => c.id) := by
        rw [List.map_cons] at hnd
        exact (List.nodup_cons.mp hnd).1
      have hrest : rest.map (mvStep cardId toColumnId) = rest := by
        have hstep : ∀ x ∈ rest, mvStep cardId toColumnId x = id x := by
          intro x hx
          have hne : x.id ≠ cardId := by
            intro he
            exact hndc (by rw [hid, ← he]; exact List.mem_map_of_mem _ hx)
          simp [mvStep, hne, id]
        exact (List.map_congr_left hstep).trans (List.map_id rest)
      have h1 : (({ card with columnId := toColumnId } : Card).columnId ==
          toColumnId) = true := by simp
      have h2 : (card.columnId == toColumnId) = false := by simp [hcol]
      rw [hrest, if_pos h1, h2, if_neg (by decide)]
    · have hcne : c.id ≠ cardId := by
        intro he
        rw [List.map_cons] at hnd
        exact (List.nodup_cons.mp hnd).1
          (by rw [he, ← hid]; exact List.mem_map_of_mem _ hmem2)
      have hmc : mvStep cardId toColumnId c = c := by simp [mvStep, hcne]
      rw [hmc]
      have ihp := moveDb1_filter_tgt rest cardId toColumnId card hmem2 hid
        (by rw [List.map_cons] at hnd; exact (List.nodup_cons.mp hnd).2) hcol
      by_cases hcT : (c.columnId == toColumnId) = true
      · rw [if_pos hcT, if_pos hcT]
        exact (ihp.cons c).trans (List.Perm.swap _ c _)
      · rw [if_neg hcT, if_neg hcT]
        exact ihp

theorem colIds_disjoint {d : DB} (hnd : (d.cards.map (fun c => c.id)).Nodup)
    {A B x : Nat} (hAB : A ≠ B) (hA : x ∈ colIds d A) (hB : x ∈ colIds d B) :
    False := by
  rw [colIds_eq] at hA hB
  obtain ⟨c1, hc1f, hc1⟩ := List.mem_map.mp hA
  obtain ⟨c2, hc2f, hc2⟩ := List.mem_map.mp hB
  have hc1m := List.mem_of_mem_filter hc1f
  have hc2m := List.mem_of_mem_filter hc2f
  have heq : c1 = c2 :=
    List.inj_on_of_nodup_map hnd hc1m hc2m (by rw [hc1, hc2])
  have h1 := List.of_mem_filter hc1f
  have h2 := List.of_mem_filter hc2f
  rw [heq] at h1
  simp only [beq_iff_eq] at h1 h2
  exact hAB (by rw [← h1, h2])

theorem puStep_eq_idxPair {ids : List Nat} {x : Nat} (h : x ∈ ids) (q : Int) :
    puStep ids (q, x) = idxPair ids x := by
  obtain ⟨i, hi⟩ := listIndexOf_isSome_of_mem h
  simp [puStep, idxPair, idxPos, hi]

theorem puStep_eq_self {ids : List Nat} {p : Int × Nat} (h : p.2 ∉ ids) :
    puStep ids p = p := by
  rw [puStep, listIndexOf_eq_none h]

theorem sortedCardIds_perm_colIds (d : DB) (col : Nat) :
    (sortedCardIds d col).Perm (colIds d col) :=
  (List.perm_insertionSort pairLe (colPairs d col)).map Prod.snd

theorem mem_cards_of_mem_colIds {d : DB} {col x : Nat} (h : x ∈ colIds d col) :
    ∃ c ∈ d.cards, c.id = x := by
  rw [colIds_eq] at h
  obtain ⟨c, hc, rfl⟩ := List.mem_map.mp h
  exact ⟨c, List.mem_of_mem_filter hc, rfl⟩

theorem findCard_isSome {d : DB} {x : Nat} (h : ∃ c ∈ d.cards, c.id = x) :
    ∃ c, findCard d x = some c ∧ c.id = x := by
  obtain ⟨c, hc, rfl⟩ := h
  have hs : (d.cards.find? (fun e => e.id == c.id)).isSome :=
    List.find?_isSome.mpr ⟨c, hc, by simp⟩
  obtain ⟨e, he⟩ := Option.isSome_iff_exists.mp hs
  exact ⟨e, he, by simpa using List.find?_some he⟩

theorem cards_ids_map_step {f : Card → Card} (hf : ∀ c, (f c).id = c.id)
    (cards : List Card) :
    (cards.map f).map (fun c => c.id) = cards.map (fun c => c.id) := by
  rw [List.map_map]
  exact List.map_congr_left (fun c _ => hf c)

theorem findCard_moveDb1 (db : DB) (cardId toColumnId x : Nat) :
    findCard (moveDb1 db cardId toColumnId) x =
      (findCard db x).map (mvStep cardId toColumnId) :=
  find?_id_map (mvStep_id cardId toColumnId) db.cards x

theorem findCard_renumber (d : DB) (ids : List Nat) (x : Nat) :
    findCard { d with cards := renumberCards d.cards ids } x =
      (findCard d x).map (rnStep ids) :=
  find?_id_map (rnStep_id ids) d.cards x

def posOf (d : DB) (x : Nat) : Option Int := (findCard d x).map (fun c => c.position)

theorem sortedCardIds_logActivity (d : DB) (bId aId : Nat) (et : String)
    (eid : Option Nat) (ac ms : String) (n col : Nat) :
    sortedCardIds (logActivity d bId aId et eid ac ms n) col = sortedCardIds d col := rfl

theorem posOf_logActivity (d : DB) (bId aId : Nat) (et : String)
    (eid : Option Nat) (ac ms : String) (n x : Nat) :
    posOf (logActivity d bId aId et eid ac ms n) x = posOf d x := rfl

theorem rnStep_hit {ids : List Nat} {c : Card} {i : Nat}
    (h : listIndexOf ids c.id = some i) :
    rnStep ids c = { c with position := ((i : Int) + 1) * 1000 } := by
  rw [rnStep, h]

theorem rnStep_skip {ids : List Nat} {c : Card} (h : c.id ∉ ids) :
    rnStep ids c = c := by
  rw [rnStep, listIndexOf_eq_none h]

theorem colIds_of_puStep_map {dA dB : DB} {ids : List Nat} {col : Nat}
    (h : colPairs dA col = (colPairs dB col).map (puStep ids)) :
    colIds dA col = colIds dB col := by
  rw [colIds, colIds, h, List.map_map]
  exact List.map_congr_left (fun p _ => puStep_snd ids p)

/-- C1: a cross-column move renumbers the destination column into the
previous destination order with the moved card inserted at index
min(requested index, destination length), entry i receiving position
(i+1)*1000, and separately renumbers the source column into its previous
order without the moved card, entry i receiving position (i+1)*1000; in
both lists positions are strictly increasing in list order. -/
theorem moveCard_cross_column (db : DB) (now userId cardId toColumnId toPosition : Nat)
    (card : Card) (role : BoardRole) (target : Column)
    (hnd : (db.cards.map (fun c => c.id)).Nodup)
    (hfind : findCard db cardId = some card)
    (hrole : getBoardRole db userId card.boardId = some role)
    (hcw : canWrite role = true)
    (hcol : findColumn db toColumnId = some target)
    (hb : target.boardId = card.boardId)
    (hcross : card.columnId ≠ toColumnId) :
    ∃ moved,
      (moveCard db now userId cardId toColumnId toPosition).resp = .ok moved ∧
      sortedCardIds (moveCard db now userId cardId toColumnId toPosition).db toColumnId =
        List.insertIdx (min toPosition (sortedCardIds db toColumnId).length) cardId
          (sortedCardIds db toColumnId) ∧
      sortedCardIds (moveCard db now userId cardId toColumnId toPosition).db
          card.columnId =
        (sortedCardIds db card.columnId).filter (fun i => i != cardId) ∧
      (∀ i x,
        (List.insertIdx (min toPosition (sortedCardIds db toColumnId).length) cardId
          (sortedCardIds db toColumnId)).get? i = some x →
        posOf (moveCard db now userId cardId toColumnId toPosition).db x =
          some (((i : Int) + 1) * 1000)) ∧
      (∀ i x,
        ((sortedCardIds db card.columnId).filter (fun i => i != cardId)).get? i = some x →
        posOf (moveCard db now userId cardId toColumnId toPosition).db x =
          some (((i : Int) + 1) * 1000)) := by
  have hcardmem : card ∈ db.cards := List.mem_of_find?_eq_some hfind
  have hcardid : card.id = cardId := by simpa using List.find?_some hfind
  -- identifiers of the intermediate stores
  have hdb2 : moveDb2 db cardId toColumnId toPosition =
      { moveDb1 db cardId toColumnId with
        cards := renumberCards (moveDb1 db cardId toColumnId).cards
          (moveIds db cardId toColumnId toPosition) } := rfl
  have hdb3 : moveDb3 db cardId toColumnId toPosition card.columnId =
      { moveDb2 db cardId toColumnId toPosition with
        cards := renumberCards (moveDb2 db cardId toColumnId toPosition).cards
          (moveSourceIds db cardId toColumnId toPosition card.columnId) } := rfl
  -- the id tables of the stores agree
  have hids1 : (moveDb1 db cardId toColumnId).cards.map (fun c => c.id) =
      db.cards.map (fun c => c.id) :=
    cards_ids_map_step (mvStep_id cardId toColumnId) db.cards
  have hnd1 : ((moveDb1 db cardId toColumnId).cards.map (fun c => c.id)).Nodup := by
    rw [hids1]
    exact hnd
  -- the moved card sits in the source column of the original store
  have hcardA : cardId ∈ colIds db card.columnId := by
    rw [colIds_eq, ← hcardid]
    exact List.mem_map_of_mem _ (List.mem_filter.mpr ⟨hcardmem, by simp⟩)
  -- target pairs of the column-updated store
  have hpermB : (colPairs (moveDb1 db cardId toColumnId) toColumnId).Perm
      ((card.position, cardId) :: colPairs db toColumnId) := by
    have h := moveDb1_filter_tgt db.cards cardId toColumnId card hcardmem hcardid hnd hcross
    have h2 := h.map pairFn
    simpa [colPairs, pairFn, hcardid] using h2
  have hpermIds : (colIds (moveDb1 db cardId toColumnId) toColumnId).Perm
      (cardId :: colIds db toColumnId) := by
    have := hpermB.map Prod.snd
    simpa [colIds] using this
  -- no pair of the original target column carries the moved id
  have hBsnd : ∀ p ∈ colPairs db toColumnId, (p.2 != cardId) = true := by
    intro p hp
    have hpB : p.2 ∈ colIds db toColumnId := List.mem_map_of_mem Prod.snd hp
    simp only [bne_iff_ne, ne_eq]
    intro he
    exact colIds_disjoint hnd hcross hcardA (he ▸ hpB)
  -- the destination list read by the handler is the original destination list
  have hF1 : moveTargetIds db cardId toColumnId = sortedCardIds db toColumnId := by
    show (sortedCardIds (moveDb1 db cardId toColumnId) toColumnId).filter
      (fun i => i != cardId) = _
    rw [sortedCardIds, sortedCardIds, List.filter_map]
    congr 1
    rw [sortedColPairs, sortedColPairs, sort_filter]
    apply sort_eq_of_perm
    have hdrop : ((card.position, cardId) :: colPairs db toColumnId).filter
        ((fun i => i != cardId) ∘ Prod.snd) = colPairs db toColumnId := by
      rw [List.filter_cons]
      have hc0 : (((fun i => i != cardId) ∘ Prod.snd)
          ((card.position, cardId) : Int × Nat)) = false := by simp
      rw [hc0, if_neg (by decide)]
      exact List.filter_eq_self.mpr (fun p hp => by
        simpa using hBsnd p hp)
    have h := hpermB.filter ((fun i => i != cardId) ∘ Prod.snd)
    rw [hdrop] at h
    exact h
  -- the spliced id list is a permutation of the destination column of db1
  have hids_perm : (moveIds db cardId toColumnId toPosition).Perm
      (cardId :: moveTargetIds db cardId toColumnId) :=
    insertIdx_perm _ _ _ (Nat.min_le_right _ _)
  have htIds_perm : (moveTargetIds db cardId toColumnId).Perm
      (colIds db toColumnId) := by
    rw [hF1]
    exact sortedCardIds_perm_colIds db toColumnId
  have hids_bIds : (moveIds db cardId toColumnId toPosition).Perm
      (colIds (moveDb1 db cardId toColumnId) toColumnId) :=
    (hids_perm.trans (htIds_perm.cons cardId)).trans hpermIds.symm
  have hndB : (colIds (moveDb1 db cardId toColumnId) toColumnId).Nodup := by
    rw [colIds_eq]
    exact hnd1.sublist ((List.filter_sublist _).map _)
  have hnd_ids : (moveIds db cardId toColumnId toPosition).Nodup :=
    hids_bIds.nodup_iff.mpr hndB
  -- source pairs survive the destination renumbering untouched
  have hApairs1 : colPairs (moveDb1 db cardId toColumnId) card.columnId =
      (colPairs db card.columnId).filter (fun q => q.2 != cardId) := by
    show ((db.cards.map (mvStep cardId toColumnId)).filter
      (fun c => c.columnId == card.columnId)).map pairFn = _
    rw [moveDb1_filter_src db.cards cardId toColumnId card.columnId hcross]
    rw [colPairs, List.filter_map]
    congr 1
  have hA2pairs : colPairs (moveDb2 db cardId toColumnId toPosition) card.columnId =
      colPairs (moveDb1 db cardId toColumnId) card.columnId := by
    rw [hdb2, colPairs_renumber]
    have hid : ∀ p ∈ colPairs (moveDb1 db cardId toColumnId) card.columnId,
        puStep (moveIds db cardId toColumnId toPosition) p = p := by
      intro p hp
      apply puStep_eq_self
      intro hin
      have hpA : p.2 ∈ colIds (moveDb1 db cardId toColumnId) card.columnId :=
        List.mem_map_of_mem Prod.snd hp
      have hpB : p.2 ∈ colIds (moveDb1 db cardId toColumnId) toColumnId :=
        hids_bIds.mem_iff.mp hin
      exact colIds_disjoint hnd1 hcross hpA hpB
    exact (List.map_congr_left hid).trans (List.map_id _)
  -- the source list read by the handler is the original source list minus the card
  have hF4 : moveSourceIds db cardId toColumnId toPosition card.columnId =
      (sortedCardIds db card.columnId).filter (fun i => i != cardId) := by
    show sortedCardIds (moveDb2 db cardId toColumnId toPosition) card.columnId = _
    rw [sortedCardIds, sortedCardIds, sortedColPairs, sortedColPairs, hA2pairs,
      hApairs1, ← sort_filter, List.filter_map]
    rfl
  -- id tables of the intermediate stores
  have hids2 : (moveDb2 db cardId toColumnId toPosition).cards.map (fun c => c.id) =
      db.cards.map (fun c => c.id) := by
    show ((moveDb1 db cardId toColumnId).cards.map
        (rnStep (moveIds db cardId toColumnId toPosition))).map (fun c => c.id) =
      db.cards.map (fun c => c.id)
    exact (cards_ids_map_step (rnStep_id _) _).trans hids1
  have hndA : (colIds (moveDb1 db cardId toColumnId) card.columnId).Nodup := by
    rw [colIds_eq]
    exact hnd1.sublist ((List.filter_sublist _).map _)
  -- destination pairs after the two renumber loops
  have hBpairs2 : colPairs (moveDb2 db cardId toColumnId toPosition) toColumnId =
      (colPairs (moveDb1 db cardId toColumnId) toColumnId).map
        (puStep (moveIds db cardId toColumnId toPosition)) := by
    rw [hdb2, colPairs_renumber]
  have hcolIds2B : colIds (moveDb2 db cardId toColumnId toPosition) toColumnId =
      colIds (moveDb1 db cardId toColumnId) toColumnId :=
    colIds_of_puStep_map hBpairs2
  have hcolIds2A : colIds (moveDb2 db cardId toColumnId toPosition) card.columnId =
      colIds (moveDb1 db cardId toColumnId) card.columnId := by
    rw [colIds, colIds, hA2pairs]
  have hsrc_perm2 : (moveSourceIds db cardId toColumnId toPosition card.columnId).Perm
      (colIds (moveDb2 db cardId toColumnId toPosition) card.columnId) :=
    sortedCardIds_perm_colIds (moveDb2 db cardId toColumnId toPosition) card.columnId
  have hsrc_permA : (moveSourceIds db cardId toColumnId toPosition card.columnId).Perm
      (colIds (moveDb1 db cardId toColumnId) card.columnId) := by
    have h := hsrc_perm2
    rw [hcolIds2A] at h
    exact h
  have hnd_src : (moveSourceIds db cardId toColumnId toPosition card.columnId).Nodup :=
    hsrc_permA.nodup_iff.mpr hndA
  have hBpairs3 : colPairs (moveDb3 db cardId toColumnId toPosition card.columnId)
      toColumnId = colPairs (moveDb2 db cardId toColumnId toPosition) toColumnId := by
    rw [hdb3, colPairs_renumber]
    have hid : ∀ p ∈ colPairs (moveDb2 db cardId toColumnId toPosition) toColumnId,
        puStep (moveSourceIds db cardId toColumnId toPosition card.columnId) p = p := by
      intro p hp
      apply puStep_eq_self
      intro hin
      have hpB : p.2 ∈ colIds (moveDb2 db cardId toColumnId toPosition) toColumnId :=
        List.mem_map_of_mem Prod.snd hp
      rw [hcolIds2B] at hpB
      exact colIds_disjoint hnd1 hcross (hsrc_permA.mem_iff.mp hin) hpB
    exact (List.map_congr_left hid).trans (List.map_id _)
  -- the destination column of the final store carries the spliced list
  have hBmap : colPairs (moveDb3 db cardId toColumnId toPosition card.columnId)
      toColumnId =
      (colIds (moveDb1 db cardId toColumnId) toColumnId).map
        (idxPair (moveIds db cardId toColumnId toPosition)) := by
    rw [hBpairs3, hBpairs2]
    have hstep : ∀ p ∈ colPairs (moveDb1 db cardId toColumnId) toColumnId,
        puStep (moveIds db cardId toColumnId toPosition) p =
          (idxPair (moveIds db cardId toColumnId toPosition) ∘ Prod.snd) p := by
      intro p hp
      have hpB : p.2 ∈ colIds (moveDb1 db cardId toColumnId) toColumnId :=
        List.mem_map_of_mem Prod.snd hp
      have hpids : p.2 ∈ moveIds db cardId toColumnId toPosition :=
        hids_bIds.mem_iff.mpr hpB
      simpa using puStep_eq_idxPair hpids p.1
    rw [colIds, List.map_map]
    exact List.map_congr_left hstep
  have hBperm_gap : (colPairs (moveDb3 db cardId toColumnId toPosition card.columnId)
      toColumnId).Perm (gapPairs 0 (moveIds db cardId toColumnId toPosition)) := by
    rw [hBmap, ← map_idxPair_eq_gapPairs (moveIds db cardId toColumnId toPosition)
      (moveIds db cardId toColumnId toPosition) 0 hnd_ids
      (fun x j h => by simpa using h)]
    exact hids_bIds.symm.map _
  have hF5 : sortedCardIds (moveDb3 db cardId toColumnId toPosition card.columnId)
      toColumnId = moveIds db cardId toColumnId toPosition := by
    rw [sortedCardIds, sortedColPairs,
      sort_eq_of_perm_sorted hBperm_gap (gapPairs_sorted 0 _), gapPairs_snd]
  -- the source column of the final store carries the filtered list
  have hApairs3 : colPairs (moveDb3 db cardId toColumnId toPosition card.columnId)
      card.columnId =
      (colIds (moveDb2 db cardId toColumnId toPosition) card.columnId).map
        (idxPair (moveSourceIds db cardId toColumnId toPosition card.columnId)) := by
    rw [hdb3, colPairs_renumber]
    have hstep : ∀ p ∈ colPairs (moveDb2 db cardId toColumnId toPosition) card.columnId,
        puStep (moveSourceIds db cardId toColumnId toPosition card.columnId) p =
          (idxPair (moveSourceIds db cardId toColumnId toPosition card.columnId) ∘
            Prod.snd) p := by
      intro p hp
      have hpA : p.2 ∈ colIds (moveDb2 db cardId toColumnId toPosition) card.columnId :=
        List.mem_map_of_mem Prod.snd hp
      have hpsrc : p.2 ∈ moveSourceIds db cardId toColumnId toPosition card.columnId :=
        hsrc_perm2.mem_iff.mpr hpA
      simpa using puStep_eq_idxPair hpsrc p.1
    rw [colIds, List.map_map]
    exact List.map_congr_left hstep
  have hAperm_gap : (colPairs (moveDb3 db cardId toColumnId toPosition card.columnId)
      card.columnId).Perm
      (gapPairs 0 (moveSourceIds db cardId toColumnId toPosition card.columnId)) := by
    rw [hApairs3, ← map_idxPair_eq_gapPairs
      (moveSourceIds db cardId toColumnId toPosition card.columnId)
      (moveSourceIds db cardId toColumnId toPosition card.columnId) 0 hnd_src
      (fun x j h => by simpa using h)]
    exact hsrc_perm2.symm.map _
  have hF6 : sortedCardIds (moveDb3 db cardId toColumnId toPosition card.columnId)
      card.columnId = moveSourceIds db cardId toColumnId toPosition card.columnId := by
    rw [sortedCardIds, sortedColPairs,
      sort_eq_of_perm_sorted hAperm_gap (gapPairs_sorted 0 _), gapPairs_snd]
  -- the transaction succeeds and reselects the moved card
  have hbeq : (target.boardId == card.boardId) = true := by simp [hb]
  have hf1 : findCard (moveDb1 db cardId toColumnId) cardId =
      some (mvStep cardId toColumnId card) := by
    rw [findCard_moveDb1, hfind]
    rfl
  have hf2 : findCard (moveDb2 db cardId toColumnId toPosition) cardId =
      some (rnStep (moveIds db cardId toColumnId toPosition)
        (mvStep cardId toColumnId card)) := by
    rw [hdb2, findCard_renumber, hf1]
    rfl
  have hf3 : findCard (moveDb3 db cardId toColumnId toPosition card.columnId) cardId =
      some (rnStep (moveSourceIds db cardId toColumnId toPosition card.columnId)
        (rnStep (moveIds db cardId toColumnId toPosition)
          (mvStep cardId toColumnId card))) := by
    rw [hdb3, findCard_renumber, hf2]
    rfl
  have htx : moveCardTx db userId cardId toColumnId toPosition =
      .ok (moveDb3 db cardId toColumnId toPosition card.columnId, card,
        rnStep (moveSourceIds db cardId toColumnId toPosition card.columnId)
          (rnStep (moveIds db cardId toColumnId toPosition)
            (mvStep cardId toColumnId card))) := by
    rw [moveCardTx, hfind]
    dsimp only []
    rw [hrole]
    dsimp only []
    rw [if_pos hcw, hcol]
    dsimp only []
    rw [if_pos hbeq, hf3]
  have hmc : moveCard db now userId cardId toColumnId toPosition =
      ⟨logActivity (moveDb3 db cardId toColumnId toPosition card.columnId) card.boardId
          userId "card" (some cardId) "moved"
          ("Moved card \"" ++ card.title ++ "\"") now,
        .ok (rnStep (moveSourceIds db cardId toColumnId toPosition card.columnId)
          (rnStep (moveIds db cardId toColumnId toPosition)
            (mvStep cardId toColumnId card))),
        [.boardChanged card.boardId "card_moved"]⟩ := by
    rw [moveCard, htx]
  have hids_eq : moveIds db cardId toColumnId toPosition =
      List.insertIdx (min toPosition (sortedCardIds db toColumnId).length) cardId
        (sortedCardIds db toColumnId) := by
    rw [moveIds, hF1]
  have hfchain : ∀ y : Nat,
      findCard (moveDb3 db cardId toColumnId toPosition card.columnId) y =
        (findCard db y).map (fun c =>
          rnStep (moveSourceIds db cardId toColumnId toPosition card.columnId)
            (rnStep (moveIds db cardId toColumnId toPosition)
              (mvStep cardId toColumnId c))) := by
    intro y
    rw [hdb3, findCard_renumber, hdb2, findCard_renumber, findCard_moveDb1,
      Option.map_map, Option.map_map]
    rfl
  refine ⟨rnStep (moveSourceIds db cardId toColumnId toPosition card.columnId)
      (rnStep (moveIds db cardId toColumnId toPosition) (mvStep cardId toColumnId card)),
    ?_, ?_, ?_, ?_, ?_⟩
  · rw [hmc]
  · rw [hmc]
    dsimp only []
    rw [sortedCardIds_logActivity, hF5]
    exact hids_eq
  · rw [hmc]
    dsimp only []
    rw [sortedCardIds_logActivity, hF6, hF4]
  · intro i x hx
    rw [← hids_eq] at hx
    obtain ⟨hi, hget⟩ := List.get?_eq_some.mp hx
    have hidx : listIndexOf (moveIds db cardId toColumnId toPosition) x = some i := by
      have h := listIndexOf_get hnd_ids i hi
      rwa [hget] at h
    have hxids : x ∈ moveIds db cardId toColumnId toPosition :=
      mem_of_listIndexOf_some hidx
    have hxB1 : x ∈ colIds (moveDb1 db cardId toColumnId) toColumnId :=
      hids_bIds.mem_iff.mp hxids
    have hxnotsrc : x ∉ moveSourceIds db cardId toColumnId toPosition card.columnId := by
      intro hin
      exact colIds_disjoint hnd1 hcross (hsrc_permA.mem_iff.mp hin) hxB1
    have hxdb : ∃ c ∈ db.cards, c.id = x := by
      have h1 : x ∈ (moveDb1 db cardId toColumnId).cards.map (fun c => c.id) := by
        rw [colIds_eq] at hxB1
        exact ((List.filter_sublist _).map _).subset hxB1
      rw [hids1] at h1
      exact List.mem_map.mp h1
    obtain ⟨c0, hc0find, hc0id⟩ := findCard_isSome hxdb
    have hmv_id : (mvStep cardId toColumnId c0).id = x := by rw [mvStep_id, hc0id]
    have hrn1 : rnStep (moveIds db cardId toColumnId toPosition)
        (mvStep cardId toColumnId c0) =
        { mvStep cardId toColumnId c0 with position := ((i : Int) + 1) * 1000 } :=
      rnStep_hit (by rw [hmv_id]; exact hidx)
    have hrn2 : rnStep (moveSourceIds db cardId toColumnId toPosition card.columnId)
        (rnStep (moveIds db cardId toColumnId toPosition)
          (mvStep cardId toColumnId c0)) =
        rnStep (moveIds db cardId toColumnId toPosition) (mvStep cardId toColumnId c0) := by
      apply rnStep_skip
      rw [rnStep_id, hmv_id]
      exact hxnotsrc
    rw [hmc]
    dsimp only []
    rw [posOf_logActivity, posOf, hfchain x, hc0find]
    simp only [Option.map_some']
    rw [hrn2, hrn1]
  · intro i x hx
    rw [← hF4] at hx
    obtain ⟨hi, hget⟩ := List.get?_eq_some.mp hx
    have hidx : listIndexOf
        (moveSourceIds db cardId toColumnId toPosition card.columnId) x = some i := by
      have h := listIndexOf_get hnd_src i hi
      rwa [hget] at h
    have hxsrc : x ∈ moveSourceIds db cardId toColumnId toPosition card.columnId :=
      mem_of_listIndexOf_some hidx
    have hxA1 : x ∈ colIds (moveDb1 db cardId toColumnId) card.columnId :=
      hsrc_permA.mem_iff.mp hxsrc
    have hxdb : ∃ c ∈ db.cards, c.id = x := by
      have h1 : x ∈ (moveDb1 db cardId toColumnId).cards.map (fun c => c.id) := by
        rw [colIds_eq] at hxA1
        exact ((List.filter_sublist _).map _).subset hxA1
      rw [hids1] at h1
      exact List.mem_map.mp h1
    obtain ⟨c0, hc0find, hc0id⟩ := findCard_isSome hxdb
    have hmv_id : (mvStep cardId toColumnId c0).id = x := by rw [mvStep_id, hc0id]
    have hrn2 : rnStep (moveSourceIds db cardId toColumnId toPosition card.columnId)
        (rnStep (moveIds db cardId toColumnId toPosition)
          (mvStep cardId toColumnId c0)) =
        { rnStep (moveIds db cardId toColumnId toPosition) (mvStep cardId toColumnId c0) with position := ((i : Int) + 1) * 1000 } :=
      rnStep_hit (by rw [rnStep_id, hmv_id]; exact hidx)
    rw [hmc]
    dsimp only []
    rw [posOf_logActivity, posOf, hfchain x, hc0find]
    simp only [Option.map_some']
    rw [hrn2]

def cardC : Card := ⟨10, 1, 1, "C", "", none, none, 1000⟩

def colB : Column := ⟨2, 1, "B", 2000⟩

/-- A board with column 1 holding cards 10, 11, 12 and column 2 holding
cards 20, 21, for the move witness. -/
def dbM : DB := {
  users := [⟨1, "Alice", "alice@example.com"⟩],
  boards := [⟨1, "Board"⟩],
  members := [⟨1, 1, .owner⟩],
  columns := [⟨1, 1, "A", 1000⟩, colB],
  cards := [cardC, ⟨11, 1, 1, "X", "", none, none, 2000⟩,
    ⟨12, 1, 1, "Y", "", none, none, 3000⟩,
    ⟨20, 1, 2, "M", "", none, none, 1000⟩,
    ⟨21, 1, 2, "N", "", none, none, 2000⟩],
  comments := [],
  activities := [],
  nextColumnId := 3,
  nextCardId := 22,
  nextCommentId := 1,
  nextActivityId := 1 }

/-- Witness for C1: the owner moves card 10 from column 1 to column 2 at
index 1 of the concrete store; every hypothesis holds there. -/
theorem moveCard_cross_column_witness :
    ((dbM.cards.map (fun c => c.id)).Nodup ∧
      findCard dbM 10 = some cardC ∧
      getBoardRole dbM 1 cardC.boardId = some .owner ∧
      canWrite .owner = true ∧
      findColumn dbM 2 = some colB ∧
      colB.boardId = cardC.boardId ∧
      cardC.columnId ≠ 2) ∧
    (∃ moved,
      (moveCard dbM 7 1 10 2 1).resp = .ok moved ∧
      sortedCardIds (moveCard dbM 7 1 10 2 1).db 2 =
        List.insertIdx (min 1 (sortedCardIds dbM 2).length) 10 (sortedCardIds dbM 2) ∧
      sortedCardIds (moveCard dbM 7 1 10 2 1).db cardC.columnId =
        (sortedCardIds dbM cardC.columnId).filter (fun i => i != 10) ∧
      (∀ i x,
        (List.insertIdx (min 1 (sortedCardIds dbM 2).length) 10
          (sortedCardIds dbM 2)).get? i = some x →
        posOf (moveCard dbM 7 1 10 2 1).db x = some (((i : Int) + 1) * 1000)) ∧
      (∀ i x,
        ((sortedCardIds dbM cardC.columnId).filter (fun i => i != 10)).get? i = some x →
        posOf (moveCard dbM 7 1 10 2 1).db x = some (((i : Int) + 1) * 1000))) :=
  ⟨⟨by decide, rfl, rfl, rfl, rfl, rfl, by decide⟩,
    moveCard_cross_column dbM 7 1 10 2 1 cardC .owner colB (by decide) rfl rfl rfl rfl
      rfl (by decide)⟩
end Kanban
